import Mathlib

/-!
# Arena demo: the scene logic of `src/main.js`

A shallow embedding of the `GameScene` class.  JavaScript numbers are modelled by
an arbitrary linearly ordered field `K` (exact arithmetic; rounding, `NaN` and
infinities are outside the model), the two counters `playerHp` and `score` and the
enemies' `_hp` by `Int`.  Everything the scene reads from its environment is an
explicit argument: the clock (`this.time.now`), the keyboard, the pointer, the
random draws of `_spawnEnemy`, and the library function `Math.hypot`.  A call of
`this.scene.restart()` only queues the restart: the flag `restartQueued` records
it, and the framework's later step `processQueue` runs `create()` again.
Purely visual effects (textures, tint, rotation, text) are left out.
-/

namespace Arena

variable {K : Type} [LinearOrderedField K]

/-! ## Constants -/

/-- World width, `const W = 960`. -/
def W : K := 960

/-- World height, `const H = 540`. -/
def H : K := 540

namespace CONFIG

def playerSpeed : K := 230
def dashSpeed : K := 720
def dashDurationMs : K := 110
def dashCooldownMs : K := 650
def bulletSpeed : K := 650
def bulletLifeMs : K := 850
def enemySpeed : K := 110
def enemySpawnMs : K := 900
def enemyHp : Int := 2
def playerMaxHp : Int := 10
def hitInvulnMs : K := 450

end CONFIG

/-- The `maxSize: 200` of both groups made in `create()`. -/
def maxSize : Nat := 200

/-! ## Data model -/

/-- The player image: position and body velocity. -/
structure Player (K : Type) where
  x : K
  y : K
  vx : K
  vy : K

/-- A member of the `bullets` group; `bornAt` is the ad-hoc property `_bornAt`
(`none` while it is `undefined`). -/
structure Bullet (K : Type) where
  x : K
  y : K
  vx : K
  vy : K
  active : Bool
  visible : Bool
  bodyEnable : Bool
  bornAt : Option K

/-- A member of the `enemies` group; `hp` and `spd` are the ad-hoc properties `_hp`
(`none` while it is `undefined`) and `_spd`. -/
structure Enemy (K : Type) where
  x : K
  y : K
  vx : K
  vy : K
  active : Bool
  visible : Bool
  bodyEnable : Bool
  hp : Option Int
  spd : K

/-- The keyboard as one call sees it: `isDown` of the eight movement keys, and the
result of `Phaser.Input.Keyboard.JustDown` for dash, shoot and restart. -/
structure Keys where
  up : Bool
  down : Bool
  left : Bool
  right : Bool
  up2 : Bool
  down2 : Bool
  left2 : Bool
  right2 : Bool
  dash : Bool
  shoot : Bool
  restart : Bool

/-- The active pointer: `worldX`/`worldY` may be missing, `x`/`y` are the fallback
of the `??` in `_tryShoot`. -/
structure Pointer (K : Type) where
  worldX : Option K
  worldY : Option K
  x : K
  y : K

/-- The fields of the scene object that the game logic reads and writes.
`spawnPaused` is `this.spawnTimer.paused`; `restartQueued` says that
`this.scene.restart()` has been called and the framework has not yet acted on
it. -/
structure GameScene (K : Type) where
  player : Player K
  playerHp : Int
  score : Int
  bullets : List (Bullet K)
  enemies : List (Enemy K)
  lastDashAt : K
  dashUntil : K
  lastShotAt : K
  playerInvulnUntil : K
  spawnPaused : Bool
  gameOver : Bool
  restartQueued : Bool

/-! ## Library helpers -/

/-- The JavaScript idiom `v || 1` on a number: `1` when `v` is `0`, else `v`. -/
def orOne (v : K) : K := if v = 0 then 1 else v

/-- Modelled from the spec: the "linear interpolation with a fixed blend factor"
of section 4.2, which the source calls as `Phaser.Math.Linear(p0, p1, t)`. -/
def Linear (p0 p1 t : K) : K := (p1 - p0) * t + p0

/-- Apply `f` to the member at index `i` (an in-place mutation of that object). -/
def modifyAt {α : Type} (f : α → α) : Nat → List α → List α
  | _, [] => []
  | 0, a :: l => f a :: l
  | n + 1, a :: l => a :: modifyAt f n l

/-- `setVelocity` on the player. -/
def Player.setVelocity (p : Player K) (vx vy : K) : Player K :=
  { p with vx := vx, vy := vy }

/-- A bullet object as the group constructs it at `(x, y)`. -/
def Bullet.fresh (x y : K) : Bullet K :=
  { x := x, y := y, vx := 0, vy := 0, active := true, visible := true,
    bodyEnable := true, bornAt := none }

/-- An enemy object as the group constructs it at `(x, y)`; `_spd` is written by
`_spawnEnemy` before anything reads it. -/
def Enemy.fresh (x y : K) : Enemy K :=
  { x := x, y := y, vx := 0, vy := 0, active := true, visible := true,
    bodyEnable := true, hp := none, spd := 0 }

/-- Modelled from the spec: the pool `acquire` of section 4.1, which the source
calls as `this.bullets.get(x, y, "bullet")`: the first inactive member, moved to
`(x, y)` and marked active, else a new member while the group holds fewer than
`maxSize`, else nothing.  Returns the member's index and the group. -/
def bulletsGet (pool : List (Bullet K)) (x y : K) : Option (Nat × List (Bullet K)) :=
  match pool.findIdx? (fun b => !b.active) with
  | some i => some (i, modifyAt (fun b => { b with x := x, y := y, active := true }) i pool)
  | none =>
    if pool.length < maxSize then some (pool.length, pool ++ [Bullet.fresh x y])
    else none

/-- Modelled from the spec: the pool `acquire` of section 4.1, which the source
calls as `this.enemies.get(x, y, "enemy")`; see `bulletsGet`. -/
def enemiesGet (pool : List (Enemy K)) (x y : K) : Option (Nat × List (Enemy K)) :=
  match pool.findIdx? (fun e => !e.active) with
  | some i => some (i, modifyAt (fun e => { e with x := x, y := y, active := true }) i pool)
  | none =>
    if pool.length < maxSize then some (pool.length, pool ++ [Enemy.fresh x y])
    else none

/-! ## The scene's methods -/

namespace GameScene

/-- The session state that `create()` leaves: lines 48-56 and 89-131.  The
framework runs it on a scene with no restart queued. -/
def create : GameScene K :=
  { player := { x := W / 2, y := H / 2, vx := 0, vy := 0 }
    playerHp := CONFIG.playerMaxHp
    score := 0
    bullets := []
    enemies := []
    lastDashAt := -9999
    dashUntil := 0
    lastShotAt := 0
    playerInvulnUntil := 0
    spawnPaused := false
    gameOver := false
    restartQueued := false }

/-- The normalised input vector of `_movePlayer` together with `len`. -/
def inputVector (hypot : K → K → K) (keys : Keys) : K × K × K :=
  let left := keys.left || keys.left2
  let right := keys.right || keys.right2
  let up := keys.up || keys.up2
  let down := keys.down || keys.down2
  let vx : K := 0
  let vy : K := 0
  let vx := if left then vx - 1 else vx
  let vx := if right then vx + 1 else vx
  let vy := if up then vy - 1 else vy
  let vy := if down then vy + 1 else vy
  let len := hypot vx vy
  if len > 0 then (vx / len, vy / len, len) else (vx, vy, len)

/-- The guard `dashPressed && canDash && len > 0` of `_movePlayer`: this call
starts a dash. -/
def dashStarts (hypot : K → K → K) (s : GameScene K) (time : K) (keys : Keys) : Bool :=
  let len := (inputVector hypot keys).2.2
  let canDash := decide (time - s.lastDashAt ≥ CONFIG.dashCooldownMs)
  let dashPressed := keys.dash
  dashPressed && canDash && decide (len > 0)

/-- `_movePlayer(time)`. -/
def _movePlayer (hypot : K → K → K) (s : GameScene K) (time : K) (keys : Keys) :
    GameScene K :=
  let vx := (inputVector hypot keys).1
  let vy := (inputVector hypot keys).2.1
  let s1 :=
    if dashStarts hypot s time keys then
      { s with
        lastDashAt := time
        dashUntil := time + CONFIG.dashDurationMs
        player := s.player.setVelocity (vx * CONFIG.dashSpeed) (vy * CONFIG.dashSpeed) }
    else s
  if time < s1.dashUntil then s1
  else
    let targetVx := vx * CONFIG.playerSpeed
    let targetVy := vy * CONFIG.playerSpeed
    let blend : K := 0.20
    let cvx := s1.player.vx
    let cvy := s1.player.vy
    { s1 with
      player := s1.player.setVelocity (Linear cvx targetVx blend) (Linear cvy targetVy blend) }

/-- The bullet once `_tryShoot` has set it up (lines 247-255): `b` is the member
the group returned at the player's position, `(dx, dy)` the direction. -/
def launch (b : Bullet K) (dx dy now : K) : Bullet K :=
  { b with
    active := true
    visible := true
    bodyEnable := true
    vx := dx * CONFIG.bulletSpeed
    vy := dy * CONFIG.bulletSpeed
    bornAt := some now
    x := b.x + dx * 18
    y := b.y + dy * 18 }

/-- `_tryShoot()`, with `this.time.now` and the pointer as arguments. -/
def _tryShoot (hypot : K → K → K) (s : GameScene K) (now : K) (ptr : Pointer K) :
    GameScene K :=
  if s.gameOver then s
  else if now - s.lastShotAt < 95 then s
  else
    let s1 := { s with lastShotAt := now }
    let p := s1.player
    let mx := ptr.worldX.getD ptr.x
    let my := ptr.worldY.getD ptr.y
    let dx := mx - p.x
    let dy := my - p.y
    let dlen := orOne (hypot dx dy)
    let dx := dx / dlen
    let dy := dy / dlen
    match bulletsGet s1.bullets p.x p.y with
    | none => s1
    | some (i, pool) => { s1 with bullets := modifyAt (fun b => launch b dx dy now) i pool }

/-- `_killBullet(b)`: deactivate, hide, stop the body and disable it. -/
def _killBullet (b : Bullet K) : Bullet K :=
  { b with active := false, visible := false, vx := 0, vy := 0, bodyEnable := false }

/-- The callback of `_cleanupBullets` on one member. -/
def cleanupBullet (time : K) (b : Bullet K) : Bullet K :=
  if !b.active then b
  else
    let b1 := if time - b.bornAt.getD 0 > CONFIG.bulletLifeMs then _killBullet b else b
    if b1.x < -20 ∨ b1.x > W + 20 ∨ b1.y < -20 ∨ b1.y > H + 20 then _killBullet b1 else b1

/-- `_cleanupBullets(time)`. -/
def _cleanupBullets (s : GameScene K) (time : K) : GameScene K :=
  { s with bullets := s.bullets.map (cleanupBullet time) }

/-- The spawn position of `_spawnEnemy()` (lines 282-287): `side` is
`Between(0, 3)` and `r` the `Between` of the free coordinate. -/
def spawnPos (side : Fin 4) (r : K) : K × K :=
  if side.val = 0 then (-10, r)
  else if side.val = 1 then (W + 10, r)
  else if side.val = 2 then (r, -10)
  else (r, H + 10)

/-- What `_spawnEnemy()` writes on the member the group returned (lines 292-298):
`f` is the `FloatBetween(0.9, 1.2)`. -/
def arm (f : K) (e : Enemy K) : Enemy K :=
  { e with
    active := true
    visible := true
    bodyEnable := true
    hp := some CONFIG.enemyHp
    spd := CONFIG.enemySpeed * f }

/-- `_spawnEnemy()`, with its random draws `side`, `r` and `f` as arguments. -/
def _spawnEnemy (s : GameScene K) (side : Fin 4) (r f : K) : GameScene K :=
  if s.gameOver then s
  else
    match enemiesGet s.enemies (spawnPos side r).1 (spawnPos side r).2 with
    | none => s
    | some (i, pool) => { s with enemies := modifyAt (arm f) i pool }

/-- The callback of `_enemyAI` on one member, the player being at `(px, py)`. -/
def enemyAIStep (hypot : K → K → K) (px py : K) (e : Enemy K) : Enemy K :=
  if !e.active then e
  else
    let dx := px - e.x
    let dy := py - e.y
    let len := orOne (hypot dx dy)
    let ux := dx / len
    let uy := dy / len
    { e with vx := ux * e.spd, vy := uy * e.spd }

/-- `_enemyAI()`. -/
def _enemyAI (hypot : K → K → K) (s : GameScene K) : GameScene K :=
  { s with enemies := s.enemies.map (enemyAIStep hypot s.player.x s.player.y) }

/-- `_killEnemy(e)`. -/
def _killEnemy (e : Enemy K) : Enemy K :=
  { e with active := false, visible := false, vx := 0, vy := 0, bodyEnable := false }

/-- The body of `_onBulletHitEnemy(b, e)` on the two objects and the score, the
player being at `(px, py)`. -/
def bulletHitEnemy (hypot : K → K → K) (px py : K) (b : Bullet K) (e : Enemy K)
    (score : Int) : Bullet K × Enemy K × Int :=
  if !b.active || !e.active then (b, e, score)
  else
    let b1 := _killBullet b
    let e1 := { e with hp := some (e.hp.getD CONFIG.enemyHp - 1) }
    let dx := e1.x - px
    let dy := e1.y - py
    let len := orOne (hypot dx dy)
    let e2 := { e1 with vx := dx / len * 240, vy := dy / len * 240 }
    if e.hp.getD CONFIG.enemyHp - 1 ≤ 0 then (b1, _killEnemy e2, score + 10)
    else (b1, e2, score)

/-- `_onBulletHitEnemy(b, e)` for the bullet at index `i` and the enemy at index
`j` of their groups. -/
def _onBulletHitEnemy (hypot : K → K → K) (s : GameScene K) (i j : Nat) : GameScene K :=
  match s.bullets[i]?, s.enemies[j]? with
  | some b, some e =>
    let r := bulletHitEnemy hypot s.player.x s.player.y b e s.score
    { s with
      bullets := s.bullets.set i r.1
      enemies := s.enemies.set j r.2.1
      score := r.2.2 }
  | _, _ => s

/-- `_gameOver()`. -/
def _gameOver (s : GameScene K) : GameScene K :=
  { s with
    gameOver := true
    spawnPaused := true
    enemies := s.enemies.map (fun e => if e.active then _killEnemy e else e)
    bullets := s.bullets.map (fun b => if b.active then _killBullet b else b) }

/-- `_onPlayerTouchEnemy(p, e)` where `p` is the player, with `this.time.now` as
an argument. -/
def _onPlayerTouchEnemy (hypot : K → K → K) (s : GameScene K) (now : K) (e : Enemy K) :
    GameScene K :=
  if s.gameOver then s
  else if now < s.playerInvulnUntil then s
  else
    let p := s.player
    let dx := p.x - e.x
    let dy := p.y - e.y
    let len := orOne (hypot dx dy)
    let s1 :=
      { s with
        playerInvulnUntil := now + CONFIG.hitInvulnMs
        playerHp := s.playerHp - 1
        player := p.setVelocity (dx / len * 320) (dy / len * 320) }
    if s1.playerHp ≤ 0 then _gameOver s1 else s1

/-- `update(time, delta)`: `now` is `this.time.now`, read by `_tryShoot`.  In
GameOver with the restart key just pressed it calls `this.scene.restart()`, which
only queues the restart, and returns. -/
def update (hypot : K → K → K) (s : GameScene K) (time now : K) (keys : Keys)
    (ptr : Pointer K) : GameScene K :=
  if s.gameOver then
    if keys.restart then { s with restartQueued := true } else s
  else
    let s1 := _movePlayer hypot s time keys
    let s2 := _enemyAI hypot s1
    let s3 := _cleanupBullets s2 time
    if keys.shoot then _tryShoot hypot s3 now ptr else s3

end GameScene

/-- A computable stand-in for `Math.hypot` on the rationals, used to run the model
on concrete inputs: the exact Euclidean norm whenever that norm is rational. -/
def hypotQ (a b : ℚ) : ℚ := Rat.sqrt (a * a + b * b)

/-- An enemy at `(x, y)` as `_spawnEnemy` leaves it with speed factor `1`. -/
def enemyAt (x y : K) : Enemy K :=
  { x := x, y := y, vx := 0, vy := 0, active := true, visible := true,
    bodyEnable := true, hp := some CONFIG.enemyHp, spd := CONFIG.enemySpeed }

/-- A pointer whose world position is `(x, y)`. -/
def pointerAt (x y : K) : Pointer K :=
  { worldX := some x, worldY := some y, x := x, y := y }

/-- A scene with one bullet in flight and one spawned enemy. -/
def duel : GameScene ℚ :=
  { (GameScene.create : GameScene ℚ) with
    bullets := [GameScene.launch (Bullet.fresh 480 270) 1 0 100]
    enemies := [enemyAt 600 270] }

/-- The number of active members of the `bullets` group. -/
def activeBullets (s : GameScene K) : Nat := s.bullets.countP (fun b => b.active)

/-- A call `_tryShoot()` in state `s` activates a bullet: the group has one more
active member after it. -/
def fires (hypot : K → K → K) (s : GameScene K) (now : K) (ptr : Pointer K) : Prop :=
  activeBullets s < activeBullets (GameScene._tryShoot hypot s now ptr)

/-- A sequence of `_tryShoot()` calls, each with its clock value and pointer. -/
def runShots (hypot : K → K → K) (s : GameScene K) (calls : List (K × Pointer K)) :
    GameScene K :=
  calls.foldl (fun s c => GameScene._tryShoot hypot s c.1 c.2) s

/-- A sequence of `_movePlayer(time)` calls, each with its keyboard state. -/
def runMoves (hypot : K → K → K) (s : GameScene K) (calls : List (K × Keys)) :
    GameScene K :=
  calls.foldl (fun s c => GameScene._movePlayer hypot s c.1 c.2) s

/-- Holding the right key, with the dash key just pressed when `dash` is set. -/
def keysRight (dash : Bool) : Keys :=
  { up := false, down := false, left := false, right := true, up2 := false,
    down2 := false, left2 := false, right2 := false, dash := dash, shoot := false,
    restart := false }

/-- Only the restart key just pressed. -/
def keysRestart : Keys :=
  { up := false, down := false, left := false, right := false, up2 := false,
    down2 := false, left2 := false, right2 := false, dash := false, shoot := false,
    restart := true }

/-- The scene's operations, as the framework calls them, each with the inputs it
reads: `update` from the game loop, `_tryShoot` from a pointer press, `_spawnEnemy`
from the spawn timer, and the two overlap callbacks (the bullet and the enemy of
`_onBulletHitEnemy` by their indices in the groups). -/
inductive Op (K : Type) where
  | update (time now : K) (keys : Keys) (ptr : Pointer K)
  | tryShoot (now : K) (ptr : Pointer K)
  | spawnEnemy (side : Fin 4) (r f : K)
  | onBulletHitEnemy (i j : Nat)
  | onPlayerTouchEnemy (now : K) (e : Enemy K)

/-- The restart key is just pressed in this operation (only `update` reads it). -/
def Op.restartKey : Op K → Bool
  | .update _ _ keys _ => keys.restart
  | _ => false

/-- One operation of the scene. -/
def step (hypot : K → K → K) (s : GameScene K) : Op K → GameScene K
  | .update time now keys ptr => GameScene.update hypot s time now keys ptr
  | .tryShoot now ptr => GameScene._tryShoot hypot s now ptr
  | .spawnEnemy side r f => GameScene._spawnEnemy s side r f
  | .onBulletHitEnemy i j => GameScene._onBulletHitEnemy hypot s i j
  | .onPlayerTouchEnemy now e => GameScene._onPlayerTouchEnemy hypot s now e

/-- Modelled from the spec: the restart of sections 4.6 and 6 ("resets to a fresh
Playing session"), which is Phaser's and not part of the source: at its next
step after `this.scene.restart()` was called, the scene manager shuts the scene
down and runs `create()` again on it; with no restart queued it does nothing. -/
def processQueue (s : GameScene K) : GameScene K :=
  if s.restartQueued then GameScene.create else s

/-- The states reachable from `create()` by the scene's operations, with the
framework's restarts in between. -/
inductive Reachable (hypot : K → K → K) : GameScene K → Prop where
  | init : Reachable hypot GameScene.create
  | next (s : GameScene K) (op : Op K) : Reachable hypot s → Reachable hypot (step hypot s op)
  | restart (s : GameScene K) : Reachable hypot s → Reachable hypot (processQueue s)

/-- The state after `n` touches of an enemy, one every 450 ms from clock value 0. -/
def hits : Nat → GameScene ℚ
  | 0 => GameScene.create
  | n + 1 => step hypotQ (hits n) (Op.onPlayerTouchEnemy (450 * n) (enemyAt 483 274))

/-- Neither health, nor the GameOver flag, nor the spawn timer differs. -/
def SameSession (s s' : GameScene K) : Prop :=
  s'.playerHp = s.playerHp ∧ s'.gameOver = s.gameOver ∧ s'.spawnPaused = s.spawnPaused

/-- The invariant of the reachable states: health is never negative and is at
least 1 while playing; in GameOver the spawn timer is paused and no member of
either group is active. -/
def Inv (s : GameScene K) : Prop :=
  0 ≤ s.playerHp ∧ (s.gameOver = false → 1 ≤ s.playerHp) ∧
  (s.gameOver = true →
    s.spawnPaused = true ∧ (∀ b ∈ s.bullets, b.active = false) ∧
      (∀ e ∈ s.enemies, e.active = false))

/-! ## Player hit and invulnerability (C1) -/

open GameScene

theorem touch_gameOver (hypot : K → K → K) (s : GameScene K) (now : K) (e : Enemy K)
    (h : s.gameOver = true) : _onPlayerTouchEnemy hypot s now e = s := by
  simp [_onPlayerTouchEnemy, h]

theorem touch_invulnerable (hypot : K → K → K) (s : GameScene K) (now : K) (e : Enemy K)
    (h : now < s.playerInvulnUntil) : _onPlayerTouchEnemy hypot s now e = s := by
  simp [_onPlayerTouchEnemy, h]

theorem touch_playerHp (hypot : K → K → K) (s : GameScene K) (now : K) (e : Enemy K)
    (hgo : s.gameOver = false) (h : ¬ now < s.playerInvulnUntil) :
    (_onPlayerTouchEnemy hypot s now e).playerHp = s.playerHp - 1 := by
  simp only [_onPlayerTouchEnemy, hgo, h, if_false, Bool.false_eq_true]
  split_ifs <;> simp [_gameOver]

theorem touch_playerInvulnUntil (hypot : K → K → K) (s : GameScene K) (now : K)
    (e : Enemy K) (hgo : s.gameOver = false) (h : ¬ now < s.playerInvulnUntil) :
    (_onPlayerTouchEnemy hypot s now e).playerInvulnUntil = now + CONFIG.hitInvulnMs := by
  simp only [_onPlayerTouchEnemy, hgo, h, if_false, Bool.false_eq_true]
  split_ifs <;> simp [_gameOver]

theorem touch_gameOver_iff (hypot : K → K → K) (s : GameScene K) (now : K)
    (e : Enemy K) (hgo : s.gameOver = false) (h : ¬ now < s.playerInvulnUntil) :
    (_onPlayerTouchEnemy hypot s now e).gameOver = decide (s.playerHp - 1 ≤ 0) := by
  simp only [_onPlayerTouchEnemy, hgo, h, if_false, Bool.false_eq_true]
  split_ifs with h1 <;> simp [_gameOver, hgo] <;> omega

/-- C1: in a state with `gameOver = false`, `_onPlayerTouchEnemy` at clock value
`now` leaves `playerHp` and `playerInvulnUntil` alone when
`now < playerInvulnUntil`, and otherwise sets `playerInvulnUntil` to
`now + hitInvulnMs` and takes one from `playerHp`; from the state of `create()`,
touches at 0, 200 and 500 give health 9 with `playerInvulnUntil = 450`, then
health 9 again, then health 8. -/
theorem onPlayerTouchEnemy_spec (hypot : K → K → K) (s : GameScene K) (now : K)
    (e : Enemy K) (hgo : s.gameOver = false) :
    (now < s.playerInvulnUntil →
      (_onPlayerTouchEnemy hypot s now e).playerHp = s.playerHp ∧
      (_onPlayerTouchEnemy hypot s now e).playerInvulnUntil = s.playerInvulnUntil) ∧
    (¬ now < s.playerInvulnUntil →
      (_onPlayerTouchEnemy hypot s now e).playerInvulnUntil = now + CONFIG.hitInvulnMs ∧
      (_onPlayerTouchEnemy hypot s now e).playerHp = s.playerHp - 1) ∧
    (∀ e1 e2 e3 : Enemy K,
      (create : GameScene K).playerHp = 10 ∧
      (create : GameScene K).playerInvulnUntil = 0 ∧
      (CONFIG.hitInvulnMs : K) = 450 ∧
      (_onPlayerTouchEnemy hypot create 0 e1).playerHp = 9 ∧
      (_onPlayerTouchEnemy hypot create 0 e1).playerInvulnUntil = 450 ∧
      (_onPlayerTouchEnemy hypot (_onPlayerTouchEnemy hypot create 0 e1) 200 e2).playerHp = 9 ∧
      (_onPlayerTouchEnemy hypot
        (_onPlayerTouchEnemy hypot (_onPlayerTouchEnemy hypot create 0 e1) 200 e2)
        500 e3).playerHp = 8) := by
  refine ⟨fun h => ?_, fun h => ?_, fun e1 e2 e3 => ?_⟩
  · rw [touch_invulnerable hypot s now e h]; exact ⟨rfl, rfl⟩
  · exact ⟨touch_playerInvulnUntil hypot s now e hgo h, touch_playerHp hypot s now e hgo h⟩
  · have c0 : (create : GameScene K).gameOver = false := rfl
    have c1 : ¬ (0 : K) < (create : GameScene K).playerInvulnUntil := by simp [create]
    have hp1 := touch_playerHp hypot create 0 e1 c0 c1
    have iv1 := touch_playerInvulnUntil hypot create 0 e1 c0 c1
    have go1 := touch_gameOver_iff hypot create 0 e1 c0 c1
    have hc : (create : GameScene K).playerHp = 10 := rfl
    rw [hc] at hp1 go1
    have go1' : (_onPlayerTouchEnemy hypot create 0 e1).gameOver = false := by
      rw [go1]; decide
    have iv1' : (_onPlayerTouchEnemy hypot create 0 e1).playerInvulnUntil = 450 := by
      rw [iv1]; simp [CONFIG.hitInvulnMs]
    have h2 : (200 : K) < (_onPlayerTouchEnemy hypot create 0 e1).playerInvulnUntil := by
      rw [iv1']; norm_num
    have e2' := touch_invulnerable hypot (_onPlayerTouchEnemy hypot create 0 e1) 200 e2 h2
    have h3 : ¬ (500 : K) < (_onPlayerTouchEnemy hypot create 0 e1).playerInvulnUntil := by
      rw [iv1']; norm_num
    have hp3 := touch_playerHp hypot (_onPlayerTouchEnemy hypot create 0 e1) 500 e3 go1' h3
    refine ⟨rfl, rfl, rfl, ?_, iv1', ?_, ?_⟩
    · rw [hp1]; norm_num
    · rw [e2', hp1]; norm_num
    · rw [e2', hp3, hp1]; norm_num

/-- The hypothesis of `onPlayerTouchEnemy_spec` holds in the state of `create()`;
the first touch, at clock value 0, costs one health point. -/
theorem onPlayerTouchEnemy_spec_witness :
    (create : GameScene ℚ).gameOver = false ∧
    (_onPlayerTouchEnemy hypotQ create 0 (enemyAt 483 274)).playerHp = 10 - 1 :=
  ⟨rfl,
    ((onPlayerTouchEnemy_spec hypotQ create 0 (enemyAt 483 274) rfl).2.1
      (by simp [create])).2⟩

/-! ## Bullet against enemy (C2) -/

theorem getElem?_modifyAt {α : Type} (f : α → α) (l : List α) :
    ∀ i k : Nat, (modifyAt f i l)[k]? = if k = i then l[k]?.map f else l[k]? := by
  induction l with
  | nil => intro i k; simp [modifyAt]
  | cons a l ih =>
    intro i k
    cases i with
    | zero =>
      cases k with
      | zero => simp [modifyAt]
      | succ k => simp [modifyAt]
    | succ i =>
      cases k with
      | zero => simp [modifyAt]
      | succ k => simp [modifyAt, ih i k]

theorem length_modifyAt {α : Type} (f : α → α) (l : List α) :
    ∀ i : Nat, (modifyAt f i l).length = l.length := by
  induction l with
  | nil => intro i; simp [modifyAt]
  | cons a l ih =>
    intro i
    cases i with
    | zero => simp [modifyAt]
    | succ i => simp [modifyAt, ih i]

theorem set_eq_self {α : Type} (l : List α) (i : Nat) (a : α) (h : l[i]? = some a) :
    l.set i a = l := by
  apply List.ext_getElem?
  intro n
  rw [List.getElem?_set]
  split_ifs with h1 h2
  · subst h1; exact h.symm
  · subst h1
    rw [List.getElem?_eq_none (by omega)] at h
    cases h
  · rfl

theorem bulletHitEnemy_inactive (hypot : K → K → K) (px py : K) (b : Bullet K)
    (e : Enemy K) (score : Int) (h : b.active = false ∨ e.active = false) :
    bulletHitEnemy hypot px py b e score = (b, e, score) := by
  rcases h with h | h <;> simp [bulletHitEnemy, h]

theorem bulletHitEnemy_kill (hypot : K → K → K) (px py : K) (b : Bullet K)
    (e : Enemy K) (score : Int) (hb : b.active = true) (he : e.active = true)
    (h : e.hp.getD CONFIG.enemyHp - 1 ≤ 0) :
    (bulletHitEnemy hypot px py b e score).1.active = false ∧
    (bulletHitEnemy hypot px py b e score).2.1.active = false ∧
    (bulletHitEnemy hypot px py b e score).2.1.hp = some (e.hp.getD CONFIG.enemyHp - 1) ∧
    (bulletHitEnemy hypot px py b e score).2.2 = score + 10 := by
  simp [bulletHitEnemy, hb, he, h, _killBullet, _killEnemy]

theorem bulletHitEnemy_survive (hypot : K → K → K) (px py : K) (b : Bullet K)
    (e : Enemy K) (score : Int) (hb : b.active = true) (he : e.active = true)
    (h : ¬ e.hp.getD CONFIG.enemyHp - 1 ≤ 0) :
    (bulletHitEnemy hypot px py b e score).1.active = false ∧
    (bulletHitEnemy hypot px py b e score).2.1.active = true ∧
    (bulletHitEnemy hypot px py b e score).2.1.hp = some (e.hp.getD CONFIG.enemyHp - 1) ∧
    (bulletHitEnemy hypot px py b e score).2.2 = score := by
  simp [bulletHitEnemy, hb, he, h, _killBullet]

theorem onBulletHitEnemy_eq (hypot : K → K → K) (s : GameScene K) (i j : Nat)
    (b : Bullet K) (e : Enemy K) (hb : s.bullets[i]? = some b)
    (he : s.enemies[j]? = some e) :
    _onBulletHitEnemy hypot s i j =
      { s with
        bullets := s.bullets.set i (bulletHitEnemy hypot s.player.x s.player.y b e s.score).1
        enemies :=
          s.enemies.set j (bulletHitEnemy hypot s.player.x s.player.y b e s.score).2.1
        score := (bulletHitEnemy hypot s.player.x s.player.y b e s.score).2.2 } := by
  simp [_onBulletHitEnemy, hb, he]

theorem onBulletHitEnemy_inactive (hypot : K → K → K) (s : GameScene K) (i j : Nat)
    (b : Bullet K) (e : Enemy K) (hb : s.bullets[i]? = some b)
    (he : s.enemies[j]? = some e) (h : b.active = false ∨ e.active = false) :
    _onBulletHitEnemy hypot s i j = s := by
  rw [onBulletHitEnemy_eq hypot s i j b e hb he, bulletHitEnemy_inactive hypot _ _ b e _ h]
  simp [set_eq_self _ _ _ hb, set_eq_self _ _ _ he]

theorem onBulletHitEnemy_bullet (hypot : K → K → K) (s : GameScene K) (i j : Nat)
    (b : Bullet K) (e : Enemy K) (hb : s.bullets[i]? = some b)
    (he : s.enemies[j]? = some e) :
    (_onBulletHitEnemy hypot s i j).bullets[i]? =
      some (bulletHitEnemy hypot s.player.x s.player.y b e s.score).1 := by
  rw [onBulletHitEnemy_eq hypot s i j b e hb he]
  have hi : i < s.bullets.length := by
    rcases List.getElem?_eq_some_iff.mp hb with ⟨h, _⟩; exact h
  simp [List.getElem?_set, hi]

theorem onBulletHitEnemy_enemy (hypot : K → K → K) (s : GameScene K) (i j : Nat)
    (b : Bullet K) (e : Enemy K) (hb : s.bullets[i]? = some b)
    (he : s.enemies[j]? = some e) :
    (_onBulletHitEnemy hypot s i j).enemies[j]? =
      some (bulletHitEnemy hypot s.player.x s.player.y b e s.score).2.1 := by
  rw [onBulletHitEnemy_eq hypot s i j b e hb he]
  have hj : j < s.enemies.length := by
    rcases List.getElem?_eq_some_iff.mp he with ⟨h, _⟩; exact h
  simp [List.getElem?_set, hj]

theorem onBulletHitEnemy_other_bullet (hypot : K → K → K) (s : GameScene K)
    (i j k : Nat) (h : k ≠ i) :
    (_onBulletHitEnemy hypot s i j).bullets[k]? = s.bullets[k]? := by
  unfold _onBulletHitEnemy
  split
  · simp [List.getElem?_set, Ne.symm h]
  · rfl

theorem onBulletHitEnemy_score (hypot : K → K → K) (s : GameScene K) (i j : Nat)
    (b : Bullet K) (e : Enemy K) (hb : s.bullets[i]? = some b)
    (he : s.enemies[j]? = some e) :
    (_onBulletHitEnemy hypot s i j).score =
      (bulletHitEnemy hypot s.player.x s.player.y b e s.score).2.2 := by
  rw [onBulletHitEnemy_eq hypot s i j b e hb he]

theorem onBulletHitEnemy_player (hypot : K → K → K) (s : GameScene K) (i j : Nat) :
    (_onBulletHitEnemy hypot s i j).player = s.player := by
  unfold _onBulletHitEnemy
  split <;> rfl

theorem enemiesGet_other (pool pool' : List (Enemy K)) (x y : K) (i : Nat)
    (h : enemiesGet pool x y = some (i, pool')) (k : Nat) (hk : k ≠ i) :
    pool'[k]? = pool[k]? := by
  unfold enemiesGet at h
  split at h
  · simp only [Option.some.injEq, Prod.mk.injEq] at h
    obtain ⟨rfl, rfl⟩ := h
    rw [getElem?_modifyAt, if_neg hk]
  · split_ifs at h
    simp only [Option.some.injEq, Prod.mk.injEq] at h
    obtain ⟨rfl, rfl⟩ := h
    rcases Nat.lt_or_gt_of_ne hk with h1 | h1
    · rw [List.getElem?_append_left h1]
    · rw [List.getElem?_eq_none (by simp; omega), List.getElem?_eq_none (by omega)]

theorem enemiesGet_slot (pool pool' : List (Enemy K)) (x y : K) (i : Nat)
    (h : enemiesGet pool x y = some (i, pool')) : ∃ e0, pool'[i]? = some e0 := by
  unfold enemiesGet at h
  split at h
  · rename_i i0 hf
    simp only [Option.some.injEq, Prod.mk.injEq] at h
    obtain ⟨rfl, rfl⟩ := h
    obtain ⟨hlt, -⟩ := List.findIdx?_eq_some_iff_getElem.mp hf
    rw [getElem?_modifyAt, if_pos rfl, List.getElem?_eq_getElem hlt]
    exact ⟨_, rfl⟩
  · split_ifs at h
    simp only [Option.some.injEq, Prod.mk.injEq] at h
    obtain ⟨rfl, rfl⟩ := h
    exact ⟨Enemy.fresh x y, by simp⟩

theorem spawnEnemy_fresh (s : GameScene K) (side : Fin 4) (r f : K) (j : Nat)
    (e' : Enemy K) (h : (_spawnEnemy s side r f).enemies[j]? = some e')
    (hne : s.enemies[j]? ≠ some e') :
    e'.active = true ∧ e'.hp = some CONFIG.enemyHp := by
  unfold _spawnEnemy at h
  by_cases hgo : s.gameOver = true
  · rw [if_pos hgo] at h; exact absurd h hne
  · rw [if_neg hgo] at h
    cases hget : enemiesGet s.enemies (spawnPos side r).1 (spawnPos side r).2 with
    | none => rw [hget] at h; exact absurd h hne
    | some ip =>
      obtain ⟨i, pool⟩ := ip
      rw [hget] at h
      simp only [getElem?_modifyAt] at h
      split_ifs at h with hji
      · subst hji
        obtain ⟨e0, he0⟩ := enemiesGet_slot _ _ _ _ _ hget
        rw [he0] at h
        simp only [Option.map_some', Option.some.injEq] at h
        subst h
        exact ⟨rfl, rfl⟩
      · rw [enemiesGet_other _ _ _ _ _ hget j hji] at h
        exact absurd h hne

/-- C2: for the bullet `b` at index `i` and the enemy `e` at index `j`,
`_onBulletHitEnemy` with both active deactivates `b` and takes exactly one hit
point from `e` (counting from `enemyHp` when `_hp` is unset); if the new hit
points are at most 0 then `e` is deactivated and `score` grows by exactly 10,
otherwise `e` stays active and `score` is unchanged.  With `b` or `e` inactive the
scene is unchanged.  An enemy that `_spawnEnemy` has just written is active with
`enemyHp = 2` hit points, and such an enemy survives a first hit with 1 hit point
and the score unchanged, while a second hit deactivates it and adds 10. -/
theorem onBulletHitEnemy_spec (hypot : K → K → K) (s : GameScene K) (i j : Nat)
    (b : Bullet K) (e : Enemy K) (hb : s.bullets[i]? = some b)
    (he : s.enemies[j]? = some e) :
    (b.active = true ∧ e.active = true →
      ((_onBulletHitEnemy hypot s i j).bullets[i]?).map (fun b' => b'.active) = some false ∧
      ((_onBulletHitEnemy hypot s i j).enemies[j]?).map (fun e' => e'.hp) =
        some (some (e.hp.getD CONFIG.enemyHp - 1)) ∧
      (∀ h : Int, e.hp = some h →
        ((_onBulletHitEnemy hypot s i j).enemies[j]?).map (fun e' => e'.hp) =
          some (some (h - 1))) ∧
      (e.hp.getD CONFIG.enemyHp - 1 ≤ 0 →
        ((_onBulletHitEnemy hypot s i j).enemies[j]?).map (fun e' => e'.active) =
          some false ∧
        (_onBulletHitEnemy hypot s i j).score = s.score + 10) ∧
      (¬ e.hp.getD CONFIG.enemyHp - 1 ≤ 0 →
        ((_onBulletHitEnemy hypot s i j).enemies[j]?).map (fun e' => e'.active) =
          some true ∧
        (_onBulletHitEnemy hypot s i j).score = s.score)) ∧
    (b.active = false ∨ e.active = false → _onBulletHitEnemy hypot s i j = s) ∧
    (∀ (s0 : GameScene K) (side : Fin 4) (r f : K) (e' : Enemy K),
      (_spawnEnemy s0 side r f).enemies[j]? = some e' → s0.enemies[j]? ≠ some e' →
      e'.active = true ∧ e'.hp = some CONFIG.enemyHp) ∧
    CONFIG.enemyHp = 2 ∧
    (∀ (i2 : Nat) (b2 : Bullet K), i2 ≠ i → s.bullets[i2]? = some b2 →
      b.active = true → b2.active = true → e.active = true →
      e.hp = some CONFIG.enemyHp →
      ((_onBulletHitEnemy hypot s i j).enemies[j]?).map (fun e' => (e'.active, e'.hp)) =
        some (true, some 1) ∧
      (_onBulletHitEnemy hypot s i j).score = s.score ∧
      ((_onBulletHitEnemy hypot (_onBulletHitEnemy hypot s i j) i2 j).enemies[j]?).map
        (fun e' => e'.active) = some false ∧
      (_onBulletHitEnemy hypot (_onBulletHitEnemy hypot s i j) i2 j).score =
        s.score + 10) := by
  have hB := onBulletHitEnemy_bullet hypot s i j b e hb he
  have hE := onBulletHitEnemy_enemy hypot s i j b e hb he
  have hS := onBulletHitEnemy_score hypot s i j b e hb he
  refine ⟨?_, onBulletHitEnemy_inactive hypot s i j b e hb he, ?_, rfl, ?_⟩
  · rintro ⟨hba, hea⟩
    by_cases h : e.hp.getD CONFIG.enemyHp - 1 ≤ 0
    · obtain ⟨k1, k2, k3, k4⟩ :=
        bulletHitEnemy_kill hypot s.player.x s.player.y b e s.score hba hea h
      refine ⟨by simp [hB, k1], by simp [hE, k3], ?_, fun _ => ⟨by simp [hE, k2], ?_⟩,
        fun h' => absurd h h'⟩
      · intro v hv; simp [hE, k3, hv]
      · rw [hS, k4]
    · obtain ⟨k1, k2, k3, k4⟩ :=
        bulletHitEnemy_survive hypot s.player.x s.player.y b e s.score hba hea h
      refine ⟨by simp [hB, k1], by simp [hE, k3], ?_, fun h' => absurd h' h,
        fun _ => ⟨by simp [hE, k2], ?_⟩⟩
      · intro v hv; simp [hE, k3, hv]
      · rw [hS, k4]
  · intro s0 side r f e' h1 h2
    exact spawnEnemy_fresh s0 side r f j e' h1 h2
  · intro i2 b2 hi2 hb2 hba hb2a hea hhp
    have h1 : ¬ e.hp.getD CONFIG.enemyHp - 1 ≤ 0 := by simp [hhp, CONFIG.enemyHp]
    obtain ⟨k1, k2, k3, k4⟩ :=
      bulletHitEnemy_survive hypot s.player.x s.player.y b e s.score hba hea h1
    have hb2' : (_onBulletHitEnemy hypot s i j).bullets[i2]? = some b2 := by
      rw [onBulletHitEnemy_other_bullet hypot s i j i2 hi2]; exact hb2
    have hp' := onBulletHitEnemy_player hypot s i j
    have h2 : (bulletHitEnemy hypot s.player.x s.player.y b e s.score).2.1.hp.getD
        CONFIG.enemyHp - 1 ≤ 0 := by
      rw [k3]; simp [hhp, CONFIG.enemyHp]
    obtain ⟨m1, m2, m3, m4⟩ :=
      bulletHitEnemy_kill hypot (_onBulletHitEnemy hypot s i j).player.x
        (_onBulletHitEnemy hypot s i j).player.y b2
        (bulletHitEnemy hypot s.player.x s.player.y b e s.score).2.1
        (_onBulletHitEnemy hypot s i j).score hb2a k2 h2
    refine ⟨?_, by rw [hS, k4], ?_, ?_⟩
    · simp [hE, k2, k3, hhp, CONFIG.enemyHp]
    · rw [onBulletHitEnemy_enemy hypot _ i2 j b2 _ hb2' hE]
      simp [m2]
    · rw [onBulletHitEnemy_score hypot _ i2 j b2 _ hb2' hE, m4, hS, k4]

/-- The hypotheses of `onBulletHitEnemy_spec` hold in `duel`: its bullet hits its
freshly spawned enemy, which survives, and the score stays. -/
theorem onBulletHitEnemy_spec_witness :
    duel.bullets[0]? = some (launch (Bullet.fresh 480 270) 1 0 100) ∧
    duel.enemies[0]? = some (enemyAt 600 270) ∧
    (_onBulletHitEnemy hypotQ duel 0 0).score = duel.score :=
  ⟨rfl, rfl,
    ((onBulletHitEnemy_spec hypotQ duel 0 0 _ _ rfl rfl).1 ⟨rfl, rfl⟩).2.2.2.2
      (by decide) |>.2⟩

/-! ## Shooting (C3, C4) -/

theorem bulletsGet_slot (pool pool' : List (Bullet K)) (x y : K) (i : Nat)
    (h : bulletsGet pool x y = some (i, pool')) :
    ∃ b0, pool'[i]? = some b0 ∧ b0.x = x ∧ b0.y = y := by
  unfold bulletsGet at h
  split at h
  · rename_i i0 hf
    simp only [Option.some.injEq, Prod.mk.injEq] at h
    obtain ⟨rfl, rfl⟩ := h
    obtain ⟨hlt, -⟩ := List.findIdx?_eq_some_iff_getElem.mp hf
    rw [getElem?_modifyAt, if_pos rfl, List.getElem?_eq_getElem hlt]
    exact ⟨_, rfl, rfl, rfl⟩
  · split_ifs at h
    simp only [Option.some.injEq, Prod.mk.injEq] at h
    obtain ⟨rfl, rfl⟩ := h
    exact ⟨Bullet.fresh x y, by simp, rfl, rfl⟩

theorem tryShoot_eq (hypot : K → K → K) (s : GameScene K) (now : K) (ptr : Pointer K)
    (i : Nat) (pool : List (Bullet K)) (hgo : s.gameOver = false)
    (hrate : ¬ now - s.lastShotAt < 95)
    (hget : bulletsGet s.bullets s.player.x s.player.y = some (i, pool)) :
    _tryShoot hypot s now ptr =
      { s with
        lastShotAt := now
        bullets :=
          modifyAt
            (fun b =>
              launch b
                ((ptr.worldX.getD ptr.x - s.player.x) /
                  orOne (hypot (ptr.worldX.getD ptr.x - s.player.x)
                    (ptr.worldY.getD ptr.y - s.player.y)))
                ((ptr.worldY.getD ptr.y - s.player.y) /
                  orOne (hypot (ptr.worldX.getD ptr.x - s.player.x)
                    (ptr.worldY.getD ptr.y - s.player.y)))
                now)
            i pool } := by
  simp [_tryShoot, hgo, hrate, hget]

/-- C3 (what the code does): when `_tryShoot` passes the rate limiter and
obtains a bullet while the pointer is exactly at the player's position, the
direction it uses is `(0, 0)`, not `(1, 0)`: the bullet is active with velocity
`(0, 0)` and sits at the player's position, with no muzzle offset. -/
theorem tryShoot_pointer_on_player (hypot : K → K → K) (s : GameScene K) (now : K)
    (ptr : Pointer K) (i : Nat) (pool : List (Bullet K)) (hgo : s.gameOver = false)
    (hrate : ¬ now - s.lastShotAt < 95)
    (hx : ptr.worldX.getD ptr.x = s.player.x) (hy : ptr.worldY.getD ptr.y = s.player.y)
    (hget : bulletsGet s.bullets s.player.x s.player.y = some (i, pool)) :
    ∃ b, (_tryShoot hypot s now ptr).bullets[i]? = some b ∧ b.active = true ∧
      b.vx = 0 ∧ b.vy = 0 ∧ b.x = s.player.x ∧ b.y = s.player.y ∧
      b.bornAt = some now ∧ b.vx ≠ CONFIG.bulletSpeed ∧ b.x ≠ s.player.x + 18 := by
  obtain ⟨b0, hb0, hx0, hy0⟩ := bulletsGet_slot _ _ _ _ _ hget
  rw [tryShoot_eq hypot s now ptr i pool hgo hrate hget]
  simp only [getElem?_modifyAt, if_true, hb0, Option.map_some', hx, hy, sub_self, zero_div]
  refine ⟨_, rfl, rfl, ?_, ?_, ?_, ?_, rfl, ?_, ?_⟩ <;>
    simp [launch, hx0, hy0, CONFIG.bulletSpeed]

/-- The hypotheses of `tryShoot_pointer_on_player` hold in the state of
`create()` at clock value 100 with the pointer on the player at `(480, 270)`. -/
theorem tryShoot_pointer_on_player_witness :
    ∃ b, (_tryShoot hypotQ create 100 (pointerAt 480 270)).bullets[0]? = some b ∧
      b.active = true ∧ b.vx = 0 ∧ b.vy = 0 ∧ b.x = (create : GameScene ℚ).player.x ∧
      b.y = (create : GameScene ℚ).player.y ∧ b.bornAt = some 100 ∧
      b.vx ≠ CONFIG.bulletSpeed ∧ b.x ≠ (create : GameScene ℚ).player.x + 18 :=
  tryShoot_pointer_on_player hypotQ create 100 (pointerAt 480 270) 0
    [Bullet.fresh (W / 2) (H / 2)] rfl (by norm_num [create])
    (by norm_num [create, pointerAt, W]) (by norm_num [create, pointerAt, H])
    (by simp [bulletsGet, create, maxSize])

theorem tryShoot_rejected (hypot : K → K → K) (s : GameScene K) (now : K)
    (ptr : Pointer K) (h : s.gameOver = true ∨ now - s.lastShotAt < 95) :
    _tryShoot hypot s now ptr = s := by
  rcases h with h | h
  · simp [_tryShoot, h]
  · by_cases hgo : s.gameOver = true
    · simp [_tryShoot, hgo]
    · simp [_tryShoot, hgo, h]

theorem tryShoot_lastShotAt (hypot : K → K → K) (s : GameScene K) (now : K)
    (ptr : Pointer K) (hgo : s.gameOver = false) (hrate : ¬ now - s.lastShotAt < 95) :
    (_tryShoot hypot s now ptr).lastShotAt = now := by
  simp only [_tryShoot, hgo, hrate, if_false, Bool.false_eq_true]
  split <;> rfl

theorem fires_passes (hypot : K → K → K) (s : GameScene K) (now : K) (ptr : Pointer K)
    (h : fires hypot s now ptr) : s.gameOver = false ∧ ¬ now - s.lastShotAt < 95 := by
  unfold fires at h
  constructor
  · by_contra hgo
    rw [Bool.not_eq_false] at hgo
    rw [tryShoot_rejected hypot s now ptr (Or.inl hgo)] at h
    exact lt_irrefl _ h
  · intro hr
    rw [tryShoot_rejected hypot s now ptr (Or.inr hr)] at h
    exact lt_irrefl _ h

theorem tryShoot_lastShotAt_mono (hypot : K → K → K) (s : GameScene K) (now : K)
    (ptr : Pointer K) : s.lastShotAt ≤ (_tryShoot hypot s now ptr).lastShotAt := by
  by_cases h : s.gameOver = true ∨ now - s.lastShotAt < 95
  · rw [tryShoot_rejected hypot s now ptr h]
  · rw [not_or] at h
    rw [tryShoot_lastShotAt hypot s now ptr (by simpa using h.1) h.2]
    have := h.2
    rw [not_lt] at this
    linarith

theorem runShots_lastShotAt_mono (hypot : K → K → K) (calls : List (K × Pointer K)) :
    ∀ s : GameScene K, s.lastShotAt ≤ (runShots hypot s calls).lastShotAt := by
  induction calls with
  | nil => intro s; exact le_refl _
  | cons c calls ih =>
    intro s
    exact le_trans (tryShoot_lastShotAt_mono hypot s c.1 c.2)
      (ih (_tryShoot hypot s c.1 c.2))

theorem runShots_append (hypot : K → K → K) (s : GameScene K)
    (l1 l2 : List (K × Pointer K)) :
    runShots hypot s (l1 ++ l2) = runShots hypot (runShots hypot s l1) l2 := by
  simp [runShots, List.foldl_append]

/-- Two successful shots are at least 95 apart, from any state and for any clock
values of the calls in between. -/
theorem runShots_fire_interval (hypot : K → K → K) (s0 : GameScene K)
    (pre mid : List (K × Pointer K)) (c1 c2 : K × Pointer K)
    (h1 : fires hypot (runShots hypot s0 pre) c1.1 c1.2)
    (h2 : fires hypot (runShots hypot s0 (pre ++ c1 :: mid)) c2.1 c2.2) :
    c1.1 + 95 ≤ c2.1 := by
  obtain ⟨g1, r1⟩ := fires_passes hypot _ _ _ h1
  obtain ⟨-, r2⟩ := fires_passes hypot _ _ _ h2
  have e1 := tryShoot_lastShotAt hypot _ c1.1 c1.2 g1 r1
  have hrun : runShots hypot s0 (pre ++ c1 :: mid) =
      runShots hypot (_tryShoot hypot (runShots hypot s0 pre) c1.1 c1.2) mid := by
    rw [runShots_append]; rfl
  rw [hrun] at r2
  have hm := runShots_lastShotAt_mono hypot mid
    (_tryShoot hypot (runShots hypot s0 pre) c1.1 c1.2)
  rw [e1] at hm
  rw [not_lt] at r2
  linarith

theorem countP_modifyAt {α : Type} (p : α → Bool) (f : α → α) (l : List α) :
    ∀ (i : Nat) (a : α), l[i]? = some a →
      (modifyAt f i l).countP p + (if p a then 1 else 0) =
        l.countP p + (if p (f a) then 1 else 0) := by
  induction l with
  | nil => intro i a h; simp at h
  | cons x l ih =>
    intro i a h
    cases i with
    | zero =>
      simp only [List.getElem?_cons_zero, Option.some.injEq] at h
      subst h
      simp only [modifyAt, List.countP_cons]
      omega
    | succ i =>
      simp only [List.getElem?_cons_succ] at h
      have := ih i a h
      simp only [modifyAt, List.countP_cons]
      omega

theorem bulletsGet_count (pool pool' : List (Bullet K)) (x y : K) (i : Nat)
    (h : bulletsGet pool x y = some (i, pool')) :
    ∃ b0, pool'[i]? = some b0 ∧ b0.active = true ∧
      pool'.countP (fun b => b.active) = pool.countP (fun b => b.active) + 1 := by
  unfold bulletsGet at h
  split at h
  · rename_i i0 hf
    simp only [Option.some.injEq, Prod.mk.injEq] at h
    obtain ⟨rfl, rfl⟩ := h
    obtain ⟨hlt, ha, -⟩ := List.findIdx?_eq_some_iff_getElem.mp hf
    have hg : pool[i0]? = some pool[i0] := List.getElem?_eq_getElem hlt
    have hc := countP_modifyAt (fun b : Bullet K => b.active)
      (fun b => { b with x := x, y := y, active := true }) pool i0 _ hg
    simp only [Bool.not_eq_true', Bool.not_eq_eq_eq_not, Bool.not_true] at ha
    refine ⟨_, by rw [getElem?_modifyAt, if_pos rfl, hg]; rfl, rfl, ?_⟩
    simp only [ha, Bool.false_eq_true, if_false, if_true, add_zero] at hc
    exact hc
  · split_ifs at h
    simp only [Option.some.injEq, Prod.mk.injEq] at h
    obtain ⟨rfl, rfl⟩ := h
    exact ⟨Bullet.fresh x y, by simp, rfl, by simp [Bullet.fresh]⟩

/-- A call activates a bullet exactly when the game is not over, the rate limiter
lets it through and the group has a member to give. -/
theorem fires_iff (hypot : K → K → K) (s : GameScene K) (now : K) (ptr : Pointer K) :
    fires hypot s now ptr ↔
      s.gameOver = false ∧ ¬ now - s.lastShotAt < 95 ∧
        (bulletsGet s.bullets s.player.x s.player.y).isSome = true := by
  constructor
  · intro h
    obtain ⟨g, r⟩ := fires_passes hypot s now ptr h
    refine ⟨g, r, ?_⟩
    cases hget : bulletsGet s.bullets s.player.x s.player.y with
    | some ip => rfl
    | none =>
      exfalso
      unfold fires at h
      have e : _tryShoot hypot s now ptr = { s with lastShotAt := now } := by
        simp [_tryShoot, g, r, hget]
      rw [e] at h
      exact lt_irrefl _ h
  · rintro ⟨g, r, hsome⟩
    cases hget : bulletsGet s.bullets s.player.x s.player.y with
    | none => rw [hget] at hsome; cases hsome
    | some ip =>
      obtain ⟨i, pool⟩ := ip
      obtain ⟨b0, hb0, ha0, hc⟩ := bulletsGet_count _ _ _ _ _ hget
      unfold fires activeBullets
      rw [tryShoot_eq hypot s now ptr i pool g r hget]
      have hm := countP_modifyAt (fun b : Bullet K => b.active)
        (fun b =>
          launch b
            ((ptr.worldX.getD ptr.x - s.player.x) /
              orOne (hypot (ptr.worldX.getD ptr.x - s.player.x)
                (ptr.worldY.getD ptr.y - s.player.y)))
            ((ptr.worldY.getD ptr.y - s.player.y) /
              orOne (hypot (ptr.worldX.getD ptr.x - s.player.x)
                (ptr.worldY.getD ptr.y - s.player.y)))
            now) pool i b0 hb0
      simp only [ha0, launch, if_true] at hm
      show List.countP (fun b => b.active) s.bullets <
        List.countP (fun b => b.active) (modifyAt _ i pool)
      simp only [launch]
      omega

/-- C4: in a sequence of `_tryShoot` calls with non-decreasing clock values that
starts in the state of `create()`, if one call activates a bullet then a later
call that also activates a bullet comes at least 95 ms after it, and a later call
made less than 95 ms after it activates no bullet. -/
theorem tryShoot_fire_interval (hypot : K → K → K)
    (pre mid post : List (K × Pointer K)) (c1 c2 : K × Pointer K)
    (_hmono : ((pre ++ c1 :: (mid ++ c2 :: post)).map Prod.fst).Pairwise (· ≤ ·))
    (h1 : fires hypot (runShots hypot create pre) c1.1 c1.2) :
    (fires hypot (runShots hypot create (pre ++ c1 :: mid)) c2.1 c2.2 →
      c1.1 + 95 ≤ c2.1) ∧
    (c2.1 - c1.1 < 95 →
      ¬ fires hypot (runShots hypot create (pre ++ c1 :: mid)) c2.1 c2.2) := by
  refine ⟨fun h2 => runShots_fire_interval hypot create pre mid c1 c2 h1 h2, ?_⟩
  intro hlt h2
  have := runShots_fire_interval hypot create pre mid c1 c2 h1 h2
  linarith

theorem fires_create (now : ℚ) (ptr : Pointer ℚ) (h : ¬ now < 95) :
    fires hypotQ create now ptr := by
  simp [fires, activeBullets, _tryShoot, create, h, bulletsGet, maxSize, modifyAt, launch,
    Bullet.fresh]

/-- The hypotheses of `tryShoot_fire_interval` hold for the calls at 100, 150 and
195 from `create()`: the first and the third activate a bullet, 95 ms apart. -/
theorem tryShoot_fire_interval_witness :
    fires hypotQ (runShots hypotQ create []) (100 : ℚ) (pointerAt 600 270) ∧
    fires hypotQ
      (runShots hypotQ create ([] ++ ((100 : ℚ), pointerAt 600 270) ::
        [((150 : ℚ), pointerAt 600 270)]))
      (195 : ℚ) (pointerAt 600 270) ∧
    (100 : ℚ) + 95 ≤ 195 := by
  have h1 : fires hypotQ (runShots hypotQ create []) (100 : ℚ) (pointerAt 600 270) :=
    fires_create 100 _ (by norm_num)
  have h2 : fires hypotQ
      (runShots hypotQ create ([] ++ ((100 : ℚ), pointerAt 600 270) ::
        [((150 : ℚ), pointerAt 600 270)]))
      (195 : ℚ) (pointerAt 600 270) := by
    simp [fires, activeBullets, runShots, _tryShoot, create, bulletsGet, maxSize, modifyAt,
      launch, Bullet.fresh]
    norm_num [bulletsGet, maxSize, modifyAt, launch, Bullet.fresh]
  exact ⟨h1, h2,
    (tryShoot_fire_interval hypotQ [] [((150 : ℚ), pointerAt 600 270)] []
      ((100 : ℚ), pointerAt 600 270) ((195 : ℚ), pointerAt 600 270)
      (by norm_num) h1).1 h2⟩

/-! ## Dash cooldown (C5) -/

theorem movePlayer_of_dash (hypot : K → K → K) (s : GameScene K) (time : K) (keys : Keys)
    (h : dashStarts hypot s time keys = true) :
    _movePlayer hypot s time keys =
      { s with
        lastDashAt := time
        dashUntil := time + CONFIG.dashDurationMs
        player :=
          s.player.setVelocity ((inputVector hypot keys).1 * CONFIG.dashSpeed)
            ((inputVector hypot keys).2.1 * CONFIG.dashSpeed) } := by
  have hlt : time < time + (CONFIG.dashDurationMs : K) := by
    simp [CONFIG.dashDurationMs]
  simp [_movePlayer, h, hlt]

theorem movePlayer_lastDashAt_of_no_dash (hypot : K → K → K) (s : GameScene K) (time : K)
    (keys : Keys) (h : dashStarts hypot s time keys = false) :
    (_movePlayer hypot s time keys).lastDashAt = s.lastDashAt ∧
    (_movePlayer hypot s time keys).dashUntil = s.dashUntil := by
  simp only [_movePlayer, h, if_false, Bool.false_eq_true]
  split_ifs <;> exact ⟨rfl, rfl⟩

theorem dashStarts_cooldown (hypot : K → K → K) (s : GameScene K) (time : K) (keys : Keys)
    (h : dashStarts hypot s time keys = true) :
    s.lastDashAt + CONFIG.dashCooldownMs ≤ time := by
  simp only [dashStarts, Bool.and_eq_true, decide_eq_true_eq] at h
  linarith [h.1.2]

theorem movePlayer_lastDashAt_mono (hypot : K → K → K) (s : GameScene K) (time : K)
    (keys : Keys) : s.lastDashAt ≤ (_movePlayer hypot s time keys).lastDashAt := by
  cases h : dashStarts hypot s time keys with
  | false => rw [(movePlayer_lastDashAt_of_no_dash hypot s time keys h).1]
  | true =>
    rw [movePlayer_of_dash hypot s time keys h]
    have := dashStarts_cooldown hypot s time keys h
    have h0 : (0 : K) ≤ CONFIG.dashCooldownMs := by simp [CONFIG.dashCooldownMs]
    show s.lastDashAt ≤ time
    linarith

theorem runMoves_lastDashAt_mono (hypot : K → K → K) (calls : List (K × Keys)) :
    ∀ s : GameScene K, s.lastDashAt ≤ (runMoves hypot s calls).lastDashAt := by
  induction calls with
  | nil => intro s; exact le_refl _
  | cons c calls ih =>
    intro s
    exact le_trans (movePlayer_lastDashAt_mono hypot s c.1 c.2)
      (ih (_movePlayer hypot s c.1 c.2))

theorem runMoves_append (hypot : K → K → K) (s : GameScene K) (l1 l2 : List (K × Keys)) :
    runMoves hypot s (l1 ++ l2) = runMoves hypot (runMoves hypot s l1) l2 := by
  simp [runMoves, List.foldl_append]

/-- Two dash starts are at least the cooldown apart, from any state and for any
time arguments of the calls in between. -/
theorem runMoves_dash_interval (hypot : K → K → K) (s0 : GameScene K)
    (pre mid : List (K × Keys)) (c1 c2 : K × Keys)
    (h1 : dashStarts hypot (runMoves hypot s0 pre) c1.1 c1.2 = true)
    (h2 : dashStarts hypot (runMoves hypot s0 (pre ++ c1 :: mid)) c2.1 c2.2 = true) :
    c1.1 + CONFIG.dashCooldownMs ≤ c2.1 := by
  have hrun : runMoves hypot s0 (pre ++ c1 :: mid) =
      runMoves hypot (_movePlayer hypot (runMoves hypot s0 pre) c1.1 c1.2) mid := by
    rw [runMoves_append]; rfl
  rw [hrun] at h2
  have hm := runMoves_lastDashAt_mono hypot mid
    (_movePlayer hypot (runMoves hypot s0 pre) c1.1 c1.2)
  rw [movePlayer_of_dash hypot _ c1.1 c1.2 h1] at hm
  have hc := dashStarts_cooldown hypot _ c2.1 c2.2 h2
  rw [movePlayer_of_dash hypot _ c1.1 c1.2 h1] at hc
  have hm' : c1.1 ≤ (runMoves hypot
      { runMoves hypot s0 pre with
        lastDashAt := c1.1
        dashUntil := c1.1 + CONFIG.dashDurationMs
        player :=
          (runMoves hypot s0 pre).player.setVelocity
            ((inputVector hypot c1.2).1 * CONFIG.dashSpeed)
            ((inputVector hypot c1.2).2.1 * CONFIG.dashSpeed) } mid).lastDashAt := hm
  linarith

/-- C5: in a sequence of `_movePlayer` calls with non-decreasing time arguments,
from any state and with any keys on each call, two calls that each start a dash
(the guard `dashPressed && canDash && len > 0` holds, so that `lastDashAt`,
`dashUntil` and the dash velocity are set) have time arguments at least
`dashCooldownMs = 650` apart; a call that starts no dash leaves `lastDashAt` and
`dashUntil` alone. -/
theorem dash_cooldown (hypot : K → K → K) (s0 : GameScene K)
    (pre mid post : List (K × Keys)) (c1 c2 : K × Keys)
    (_hmono : ((pre ++ c1 :: (mid ++ c2 :: post)).map Prod.fst).Pairwise (· ≤ ·))
    (h1 : dashStarts hypot (runMoves hypot s0 pre) c1.1 c1.2 = true)
    (h2 : dashStarts hypot (runMoves hypot s0 (pre ++ c1 :: mid)) c2.1 c2.2 = true) :
    c1.1 + 650 ≤ c2.1 ∧
    (CONFIG.dashCooldownMs : K) = 650 ∧
    (_movePlayer hypot (runMoves hypot s0 pre) c1.1 c1.2).lastDashAt = c1.1 ∧
    (_movePlayer hypot (runMoves hypot s0 pre) c1.1 c1.2).dashUntil =
      c1.1 + CONFIG.dashDurationMs ∧
    (_movePlayer hypot (runMoves hypot s0 pre) c1.1 c1.2).player.vx =
      (inputVector hypot c1.2).1 * CONFIG.dashSpeed ∧
    (_movePlayer hypot (runMoves hypot s0 pre) c1.1 c1.2).player.vy =
      (inputVector hypot c1.2).2.1 * CONFIG.dashSpeed ∧
    (∀ (s : GameScene K) (time : K) (keys : Keys),
      dashStarts hypot s time keys = false →
      (_movePlayer hypot s time keys).lastDashAt = s.lastDashAt ∧
      (_movePlayer hypot s time keys).dashUntil = s.dashUntil) := by
  have h := runMoves_dash_interval hypot s0 pre mid c1 c2 h1 h2
  rw [movePlayer_of_dash hypot _ c1.1 c1.2 h1]
  refine ⟨?_, rfl, rfl, rfl, rfl, rfl, ?_⟩
  · simpa [CONFIG.dashCooldownMs] using h
  · intro s time keys hk
    exact movePlayer_lastDashAt_of_no_dash hypot s time keys hk

theorem hypotQ_one_zero : hypotQ 1 0 = 1 := by
  have h : (1 * 1 + 0 * 0 : ℚ) = 1 * 1 := by norm_num
  rw [hypotQ, h, Rat.sqrt_eq]
  norm_num

theorem dashStarts_keysRight (s : GameScene ℚ) (time : ℚ)
    (h : s.lastDashAt + 650 ≤ time) : dashStarts hypotQ s time (keysRight true) = true := by
  have hc : time - s.lastDashAt ≥ 650 := by linarith
  simp [dashStarts, inputVector, keysRight, hypotQ_one_zero, CONFIG.dashCooldownMs, hc]

/-- The hypotheses of `dash_cooldown` hold from `create()` with the right key held
and the dash key pressed on the calls at 0 and 650, and not on the call at 300. -/
theorem dash_cooldown_witness :
    dashStarts hypotQ (runMoves hypotQ create []) (0 : ℚ) (keysRight true) = true ∧
    dashStarts hypotQ
      (runMoves hypotQ create ([] ++ ((0 : ℚ), keysRight true) ::
        [((300 : ℚ), keysRight true)]))
      (650 : ℚ) (keysRight true) = true ∧
    (0 : ℚ) + 650 ≤ 650 := by
  have h1 : dashStarts hypotQ (runMoves hypotQ create []) (0 : ℚ) (keysRight true) = true :=
    dashStarts_keysRight _ _ (by norm_num [runMoves, create])
  have e1 : _movePlayer hypotQ create (0 : ℚ) (keysRight true) = _ :=
    movePlayer_of_dash hypotQ create 0 (keysRight true) h1
  have n2 : dashStarts hypotQ (_movePlayer hypotQ create (0 : ℚ) (keysRight true))
      (300 : ℚ) (keysRight true) = false := by
    rw [e1]
    simp only [dashStarts, CONFIG.dashCooldownMs, Bool.and_eq_false_iff, decide_eq_false_iff_not]
    left; right
    norm_num
  have h2 : dashStarts hypotQ
      (runMoves hypotQ create ([] ++ ((0 : ℚ), keysRight true) ::
        [((300 : ℚ), keysRight true)]))
      (650 : ℚ) (keysRight true) = true := by
    apply dashStarts_keysRight
    have e : runMoves hypotQ create ([] ++ ((0 : ℚ), keysRight true) ::
        [((300 : ℚ), keysRight true)]) =
        _movePlayer hypotQ (_movePlayer hypotQ create (0 : ℚ) (keysRight true))
          (300 : ℚ) (keysRight true) := rfl
    rw [e, (movePlayer_lastDashAt_of_no_dash hypotQ _ _ _ n2).1, e1]
    norm_num
  exact ⟨h1, h2,
    (dash_cooldown hypotQ create [] [((300 : ℚ), keysRight true)] []
      ((0 : ℚ), keysRight true) ((650 : ℚ), keysRight true) (by norm_num) h1 h2).1⟩

/-! ## Bullet cleanup (C7) -/

theorem killBullet_idem (b : Bullet K) : _killBullet (_killBullet b) = _killBullet b := rfl

theorem cleanupBullet_inactive (time : K) (b : Bullet K) (h : b.active = false) :
    cleanupBullet time b = b := by
  simp [cleanupBullet, h]

theorem cleanupBullet_keep (time : K) (b : Bullet K) (ha : b.active = true)
    (hl : time - b.bornAt.getD 0 ≤ CONFIG.bulletLifeMs)
    (hb : -20 ≤ b.x ∧ b.x ≤ W + 20 ∧ -20 ≤ b.y ∧ b.y ≤ H + 20) :
    cleanupBullet time b = b := by
  obtain ⟨h1, h2, h3, h4⟩ := hb
  simp [cleanupBullet, ha, not_lt.mpr hl, not_lt.mpr h1, not_lt.mpr h2, not_lt.mpr h3,
    not_lt.mpr h4]

theorem cleanupBullet_kill (time : K) (b : Bullet K) (ha : b.active = true)
    (h : ¬ time - b.bornAt.getD 0 ≤ CONFIG.bulletLifeMs ∨
      ¬ (-20 ≤ b.x ∧ b.x ≤ W + 20 ∧ -20 ≤ b.y ∧ b.y ≤ H + 20)) :
    cleanupBullet time b = _killBullet b := by
  by_cases hl : time - b.bornAt.getD 0 > CONFIG.bulletLifeMs
  · simp only [cleanupBullet, ha, hl, if_true, Bool.not_true, Bool.false_eq_true, if_false]
    split_ifs <;> rfl
  · have hb : ¬ (-20 ≤ b.x ∧ b.x ≤ W + 20 ∧ -20 ≤ b.y ∧ b.y ≤ H + 20) := by
      rcases h with h | h
      · exact absurd (not_lt.mp hl) h
      · exact h
    have hb' : b.x < -20 ∨ b.x > W + 20 ∨ b.y < -20 ∨ b.y > H + 20 := by
      by_contra hc
      simp only [not_or, not_lt] at hc
      exact hb ⟨hc.1, hc.2.1, hc.2.2.1, hc.2.2.2⟩
    simp only [cleanupBullet, ha, hl, if_false, Bool.not_true, Bool.false_eq_true, hb', if_true]

theorem cleanupBullet_active (time : K) (b : Bullet K)
    (h : (cleanupBullet time b).active = true) :
    cleanupBullet time b = b ∧ time - b.bornAt.getD 0 ≤ CONFIG.bulletLifeMs ∧
      -20 ≤ b.x ∧ b.x ≤ W + 20 ∧ -20 ≤ b.y ∧ b.y ≤ H + 20 := by
  have ha : b.active = true := by
    by_contra hc
    rw [Bool.not_eq_true] at hc
    rw [cleanupBullet_inactive time b hc] at h
    rw [hc] at h
    cases h
  by_cases hk : ¬ time - b.bornAt.getD 0 ≤ CONFIG.bulletLifeMs ∨
      ¬ (-20 ≤ b.x ∧ b.x ≤ W + 20 ∧ -20 ≤ b.y ∧ b.y ≤ H + 20)
  · rw [cleanupBullet_kill time b ha hk] at h
    cases h
  · rw [not_or, not_not, not_not] at hk
    exact ⟨cleanupBullet_keep time b ha hk.1 hk.2, hk.1, hk.2⟩

/-- C7: for every group of bullets and every `time`, `_cleanupBullets(time)` keeps
the group's size and acts on each member `b` on its own: a member still active
afterwards has `time - _bornAt <= bulletLifeMs = 850` (an unset `_bornAt` counting
as 0) and lies within the world enlarged by 20 on each side; a member that was
active and met both conditions is unchanged, hence still active; a member that
fails both is deactivated exactly as one that fails either, `_killBullet` applied
twice being `_killBullet` applied once; inactive members are unchanged. -/
theorem cleanupBullets_spec (s : GameScene K) (time : K) (i : Nat) (b : Bullet K)
    (hb : s.bullets[i]? = some b) :
    (_cleanupBullets s time).bullets.length = s.bullets.length ∧
    ∃ b', (_cleanupBullets s time).bullets[i]? = some b' ∧
      (b'.active = true →
        time - b'.bornAt.getD 0 ≤ CONFIG.bulletLifeMs ∧
        -20 ≤ b'.x ∧ b'.x ≤ W + 20 ∧ -20 ≤ b'.y ∧ b'.y ≤ H + 20) ∧
      (b.active = true → time - b.bornAt.getD 0 ≤ CONFIG.bulletLifeMs →
        (-20 ≤ b.x ∧ b.x ≤ W + 20 ∧ -20 ≤ b.y ∧ b.y ≤ H + 20) →
        b' = b ∧ b'.active = true) ∧
      (b.active = true → ¬ time - b.bornAt.getD 0 ≤ CONFIG.bulletLifeMs →
        ¬ (-20 ≤ b.x ∧ b.x ≤ W + 20 ∧ -20 ≤ b.y ∧ b.y ≤ H + 20) →
        b' = _killBullet (_killBullet b)) ∧
      (b.active = true →
        (¬ time - b.bornAt.getD 0 ≤ CONFIG.bulletLifeMs ∨
          ¬ (-20 ≤ b.x ∧ b.x ≤ W + 20 ∧ -20 ≤ b.y ∧ b.y ≤ H + 20)) →
        b' = _killBullet b ∧ b'.active = false) ∧
      _killBullet (_killBullet b) = _killBullet b ∧
      (b.active = false → b' = b) ∧
      (CONFIG.bulletLifeMs : K) = 850 := by
  refine ⟨by simp [_cleanupBullets], cleanupBullet time b, by simp [_cleanupBullets, hb],
    ?_, ?_, ?_, ?_, rfl, cleanupBullet_inactive time b, rfl⟩
  · intro h
    obtain ⟨e, h1, h2⟩ := cleanupBullet_active time b h
    rw [e]
    exact ⟨h1, h2⟩
  · intro ha hl hbd
    rw [cleanupBullet_keep time b ha hl hbd]
    exact ⟨rfl, ha⟩
  · intro ha hl hbd
    rw [cleanupBullet_kill time b ha (Or.inl hl)]
    rfl
  · intro ha h
    rw [cleanupBullet_kill time b ha h]
    exact ⟨rfl, rfl⟩

/-- The hypothesis of `cleanupBullets_spec` holds for the bullet of `duel`, born
at 100: at time 951 it is older than 850 and is deactivated. -/
theorem cleanupBullets_spec_witness :
    duel.bullets[0]? = some (launch (Bullet.fresh 480 270) 1 0 100) ∧
    ∃ b', (_cleanupBullets duel 951).bullets[0]? = some b' ∧ b'.active = false := by
  obtain ⟨-, b', h1, -, -, -, h4, -⟩ :=
    cleanupBullets_spec duel 951 0 (launch (Bullet.fresh 480 270) 1 0 100) rfl
  refine ⟨rfl, b', h1, (h4 rfl (Or.inl ?_)).2⟩
  norm_num [launch, Bullet.fresh, CONFIG.bulletLifeMs]

/-! ## Enemy pursuit (C10) -/

theorem enemyAIStep_inactive (hypot : K → K → K) (px py : K) (e : Enemy K)
    (h : e.active = false) : enemyAIStep hypot px py e = e := by
  simp [enemyAIStep, h]

theorem enemyAIStep_coincide (hypot : K → K → K) (px py : K) (e : Enemy K)
    (ha : e.active = true) (hx : e.x = px) (hy : e.y = py) :
    enemyAIStep hypot px py e = { e with vx := 0, vy := 0 } := by
  simp [enemyAIStep, ha, hx, hy]

theorem hypot_pos_of_exact (hypot : K → K → K) (dx dy : K) (hd : dx ≠ 0 ∨ dy ≠ 0)
    (h0 : 0 ≤ hypot dx dy) (hsq : hypot dx dy * hypot dx dy = dx * dx + dy * dy) :
    0 < hypot dx dy := by
  rcases lt_or_eq_of_le h0 with h | h
  · exact h
  · exfalso
    rw [← h] at hsq
    have h1 : dx * dx + dy * dy = 0 := by rw [← hsq]; ring
    have hx : dx * dx = 0 := by nlinarith [mul_self_nonneg dx, mul_self_nonneg dy]
    have hy : dy * dy = 0 := by nlinarith [mul_self_nonneg dx, mul_self_nonneg dy]
    rcases hd with hd | hd
    · exact hd (mul_self_eq_zero.mp hx)
    · exact hd (mul_self_eq_zero.mp hy)

theorem enemyAIStep_chase (hypot : K → K → K) (px py : K) (e : Enemy K)
    (ha : e.active = true) (hpos : 0 < hypot (px - e.x) (py - e.y)) :
    enemyAIStep hypot px py e =
      { e with
        vx := (px - e.x) / hypot (px - e.x) (py - e.y) * e.spd
        vy := (py - e.y) / hypot (px - e.x) (py - e.y) * e.spd } := by
  simp [enemyAIStep, ha, orOne, ne_of_gt hpos]

/-- C10: `_enemyAI` acts on each member `e` of the group on its own, the player
being at `(px, py)`.  An inactive `e` is unchanged.  An active `e` at the player's
position gets velocity exactly `(0, 0)`.  An active `e` elsewhere, with
`L = Math.hypot(px - e.x, py - e.y)` the Euclidean length of the offset (`L >= 0`
and `L * L = dx * dx + dy * dy`), gets velocity `_spd` times the unit vector
`(dx / L, dy / L)` from the enemy to the player: `L > 0`, the vector has length 1
and the velocity has squared length `_spd * _spd`; nothing but the velocity
changes. -/
theorem enemyAI_spec (hypot : K → K → K) (s : GameScene K) (j : Nat) (e : Enemy K)
    (he : s.enemies[j]? = some e) :
    (_enemyAI hypot s).enemies.length = s.enemies.length ∧
    ∃ e', (_enemyAI hypot s).enemies[j]? = some e' ∧
      (e.active = false → e' = e) ∧
      (e.active = true → e.x = s.player.x → e.y = s.player.y →
        e' = { e with vx := 0, vy := 0 }) ∧
      (e.active = true → (e.x ≠ s.player.x ∨ e.y ≠ s.player.y) →
        0 ≤ hypot (s.player.x - e.x) (s.player.y - e.y) →
        hypot (s.player.x - e.x) (s.player.y - e.y) *
            hypot (s.player.x - e.x) (s.player.y - e.y) =
          (s.player.x - e.x) * (s.player.x - e.x) +
            (s.player.y - e.y) * (s.player.y - e.y) →
        0 < hypot (s.player.x - e.x) (s.player.y - e.y) ∧
        e' =
          { e with
            vx := (s.player.x - e.x) / hypot (s.player.x - e.x) (s.player.y - e.y) * e.spd
            vy := (s.player.y - e.y) / hypot (s.player.x - e.x) (s.player.y - e.y) * e.spd } ∧
        (s.player.x - e.x) / hypot (s.player.x - e.x) (s.player.y - e.y) *
              ((s.player.x - e.x) / hypot (s.player.x - e.x) (s.player.y - e.y)) +
            (s.player.y - e.y) / hypot (s.player.x - e.x) (s.player.y - e.y) *
              ((s.player.y - e.y) / hypot (s.player.x - e.x) (s.player.y - e.y)) = 1 ∧
        e'.vx * e'.vx + e'.vy * e'.vy = e.spd * e.spd) := by
  refine ⟨by simp [_enemyAI], enemyAIStep hypot s.player.x s.player.y e,
    by simp [_enemyAI, he], enemyAIStep_inactive hypot _ _ e, ?_, ?_⟩
  · intro ha hx hy
    exact enemyAIStep_coincide hypot _ _ e ha hx hy
  · intro ha hne h0 hsq
    have hd : s.player.x - e.x ≠ 0 ∨ s.player.y - e.y ≠ 0 := by
      rcases hne with h | h
      · exact Or.inl (fun hc => h (sub_eq_zero.mp hc).symm)
      · exact Or.inr (fun hc => h (sub_eq_zero.mp hc).symm)
    have hpos := hypot_pos_of_exact hypot _ _ hd h0 hsq
    have hunit : (s.player.x - e.x) / hypot (s.player.x - e.x) (s.player.y - e.y) *
          ((s.player.x - e.x) / hypot (s.player.x - e.x) (s.player.y - e.y)) +
        (s.player.y - e.y) / hypot (s.player.x - e.x) (s.player.y - e.y) *
          ((s.player.y - e.y) / hypot (s.player.x - e.x) (s.player.y - e.y)) = 1 := by
      have hL := ne_of_gt hpos
      field_simp
      linarith
    refine ⟨hpos, enemyAIStep_chase hypot _ _ e ha hpos, hunit, ?_⟩
    rw [enemyAIStep_chase hypot _ _ e ha hpos]
    show (s.player.x - e.x) / hypot (s.player.x - e.x) (s.player.y - e.y) * e.spd *
          ((s.player.x - e.x) / hypot (s.player.x - e.x) (s.player.y - e.y) * e.spd) +
        (s.player.y - e.y) / hypot (s.player.x - e.x) (s.player.y - e.y) * e.spd *
          ((s.player.y - e.y) / hypot (s.player.x - e.x) (s.player.y - e.y) * e.spd) =
        e.spd * e.spd
    linear_combination (e.spd * e.spd) * hunit

theorem hypotQ_120 : hypotQ (-120) 0 = 120 := by
  have h : ((-120) * (-120) + 0 * 0 : ℚ) = 120 * 120 := by norm_num
  rw [hypotQ, h, Rat.sqrt_eq]
  norm_num

/-- The hypotheses of `enemyAI_spec` hold in `duel`: the enemy at `(600, 270)` is
120 to the right of the player and is sent left at its speed 110. -/
theorem enemyAI_spec_witness :
    duel.enemies[0]? = some (enemyAt 600 270) ∧
    ∃ e' : Enemy ℚ,
      (_enemyAI hypotQ duel).enemies[0]? = some e' ∧ e'.vx = -110 ∧ e'.vy = 0 := by
  have hx : duel.player.x - (enemyAt (600 : ℚ) 270).x = -120 := by
    norm_num [duel, create, enemyAt, W]
  have hy : duel.player.y - (enemyAt (600 : ℚ) 270).y = 0 := by
    norm_num [duel, create, enemyAt, H]
  obtain ⟨-, e', h1, -, -, h3⟩ := enemyAI_spec hypotQ duel 0 (enemyAt 600 270) rfl
  have h := h3 rfl (Or.inl (by norm_num [duel, create, enemyAt, W]))
    (by rw [hx, hy, hypotQ_120]; norm_num) (by rw [hx, hy, hypotQ_120]; norm_num)
  refine ⟨rfl, e', h1, ?_, ?_⟩
  · rw [h.2.1, hx, hy, hypotQ_120]
    norm_num [enemyAt, CONFIG.enemySpeed]
  · rw [h.2.1, hx, hy, hypotQ_120]
    norm_num [enemyAt, CONFIG.enemySpeed]

/-! ## Restart (C9) -/

theorem update_gameOver (hypot : K → K → K) (s : GameScene K) (time now : K) (keys : Keys)
    (ptr : Pointer K) (hgo : s.gameOver = true) :
    update hypot s time now keys ptr =
      if keys.restart then { s with restartQueued := true } else s := by
  simp [update, hgo]

/-- C9: from every state with `gameOver` set, an `update` with the restart key just
pressed changes nothing but to queue the restart, and the restart that the
framework then performs, re-running `create()`, yields the state of `create()`:
`playerHp = playerMaxHp = 10`, `score = 0`, `gameOver = false`, and no member of
either group is active (both are empty). -/
theorem restart_resets (hypot : K → K → K) (s : GameScene K) (time now : K)
    (keys : Keys) (ptr : Pointer K) (hgo : s.gameOver = true)
    (hr : keys.restart = true) :
    update hypot s time now keys ptr = { s with restartQueued := true } ∧
    processQueue (update hypot s time now keys ptr) = create ∧
    (processQueue (update hypot s time now keys ptr)).playerHp = CONFIG.playerMaxHp ∧
    CONFIG.playerMaxHp = 10 ∧
    (processQueue (update hypot s time now keys ptr)).score = 0 ∧
    (processQueue (update hypot s time now keys ptr)).gameOver = false ∧
    (∀ b ∈ (processQueue (update hypot s time now keys ptr)).bullets, b.active = false) ∧
    (∀ e ∈ (processQueue (update hypot s time now keys ptr)).enemies, e.active = false) := by
  have hu : update hypot s time now keys ptr = { s with restartQueued := true } := by
    rw [update_gameOver hypot s time now keys ptr hgo, if_pos hr]
  have h : processQueue (update hypot s time now keys ptr) = create := by
    rw [hu]
    simp [processQueue]
  rw [h]
  refine ⟨hu, rfl, rfl, rfl, rfl, rfl, ?_, ?_⟩ <;> simp [create]

/-- The hypotheses of `restart_resets` hold in `duel` once `_gameOver` has run,
with the restart key just pressed: the restart brings the health back to 10. -/
theorem restart_resets_witness :
    (_gameOver duel).gameOver = true ∧ keysRestart.restart = true ∧
    (processQueue
      (update hypotQ (_gameOver duel) 5000 5000 keysRestart (pointerAt 0 0))).playerHp = 10 :=
  ⟨rfl, rfl,
    (restart_resets hypotQ (_gameOver duel) 5000 5000 keysRestart (pointerAt 0 0)
      rfl rfl).2.2.1⟩

/-! ## Reachable states: health and GameOver (C6, C8) -/

omit [LinearOrderedField K] in
theorem SameSession.trans {s1 s2 s3 : GameScene K} (h1 : SameSession s1 s2)
    (h2 : SameSession s2 s3) : SameSession s1 s3 :=
  ⟨h2.1.trans h1.1, h2.2.1.trans h1.2.1, h2.2.2.trans h1.2.2⟩

theorem movePlayer_session (hypot : K → K → K) (s : GameScene K) (time : K) (keys : Keys) :
    SameSession s (_movePlayer hypot s time keys) := by
  unfold _movePlayer
  dsimp only
  split_ifs <;> exact ⟨rfl, rfl, rfl⟩

theorem enemyAI_session (hypot : K → K → K) (s : GameScene K) :
    SameSession s (_enemyAI hypot s) := ⟨rfl, rfl, rfl⟩

theorem cleanupBullets_session (s : GameScene K) (time : K) :
    SameSession s (_cleanupBullets s time) := ⟨rfl, rfl, rfl⟩

theorem tryShoot_session (hypot : K → K → K) (s : GameScene K) (now : K) (ptr : Pointer K) :
    SameSession s (_tryShoot hypot s now ptr) := by
  unfold _tryShoot
  dsimp only
  split_ifs
  · exact ⟨rfl, rfl, rfl⟩
  · exact ⟨rfl, rfl, rfl⟩
  · split <;> exact ⟨rfl, rfl, rfl⟩

theorem spawnEnemy_session (s : GameScene K) (side : Fin 4) (r f : K) :
    SameSession s (_spawnEnemy s side r f) := by
  unfold _spawnEnemy
  split_ifs
  · exact ⟨rfl, rfl, rfl⟩
  · split <;> exact ⟨rfl, rfl, rfl⟩

theorem onBulletHitEnemy_session (hypot : K → K → K) (s : GameScene K) (i j : Nat) :
    SameSession s (_onBulletHitEnemy hypot s i j) := by
  unfold _onBulletHitEnemy
  split <;> exact ⟨rfl, rfl, rfl⟩

theorem update_session (hypot : K → K → K) (s : GameScene K) (time now : K) (keys : Keys)
    (ptr : Pointer K) : SameSession s (update hypot s time now keys ptr) := by
  cases hgo : s.gameOver with
  | true =>
    rw [update_gameOver hypot s time now keys ptr hgo]
    split_ifs <;> exact ⟨rfl, rfl, rfl⟩
  | false =>
    have h3 : SameSession s
        (_cleanupBullets (_enemyAI hypot (_movePlayer hypot s time keys)) time) :=
      ((movePlayer_session hypot s time keys).trans (enemyAI_session hypot _)).trans
        (cleanupBullets_session _ time)
    simp only [update, hgo, if_false, Bool.false_eq_true]
    split_ifs
    · exact h3.trans (tryShoot_session hypot _ now ptr)
    · exact h3

omit [LinearOrderedField K] in
theorem Inv.of_session {s s' : GameScene K} (h : Inv s) (hs : SameSession s s')
    (hgo : s.gameOver = false) : Inv s' := by
  obtain ⟨h1, h2, h3⟩ := hs
  refine ⟨by rw [h1]; exact h.1, fun _ => by rw [h1]; exact h.2.1 hgo, fun hc => ?_⟩
  rw [h2, hgo] at hc
  cases hc

theorem inv_create : Inv (create : GameScene K) := by
  refine ⟨by simp [create, CONFIG.playerMaxHp], fun _ => by simp [create, CONFIG.playerMaxHp],
    fun h => ?_⟩
  cases h

theorem gameOver_releases (s : GameScene K) :
    (_gameOver s).gameOver = true ∧ (_gameOver s).spawnPaused = true ∧
    (∀ b ∈ (_gameOver s).bullets, b.active = false) ∧
    (∀ e ∈ (_gameOver s).enemies, e.active = false) ∧
    (_gameOver s).playerHp = s.playerHp ∧ (_gameOver s).score = s.score := by
  refine ⟨rfl, rfl, ?_, ?_, rfl, rfl⟩
  · intro b hb
    simp only [_gameOver, List.mem_map] at hb
    obtain ⟨a, -, rfl⟩ := hb
    cases ha : a.active <;> simp [ha, _killBullet]
  · intro e he
    simp only [_gameOver, List.mem_map] at he
    obtain ⟨a, -, rfl⟩ := he
    cases ha : a.active <;> simp [ha, _killEnemy]

theorem touch_hit_eq (hypot : K → K → K) (s : GameScene K) (now : K) (e : Enemy K)
    (hgo : s.gameOver = false) (h : ¬ now < s.playerInvulnUntil) :
    ∃ s1 : GameScene K, s1.playerHp = s.playerHp - 1 ∧ s1.gameOver = false ∧
      _onPlayerTouchEnemy hypot s now e = if s1.playerHp ≤ 0 then _gameOver s1 else s1 := by
  refine ⟨{ s with
      playerInvulnUntil := now + CONFIG.hitInvulnMs
      playerHp := s.playerHp - 1
      player :=
        s.player.setVelocity
          ((s.player.x - e.x) / orOne (hypot (s.player.x - e.x) (s.player.y - e.y)) * 320)
          ((s.player.y - e.y) / orOne (hypot (s.player.x - e.x) (s.player.y - e.y)) * 320) },
    rfl, hgo, ?_⟩
  simp only [_onPlayerTouchEnemy, hgo, h, if_false, Bool.false_eq_true]

theorem inv_touch (hypot : K → K → K) (s : GameScene K) (now : K) (e : Enemy K)
    (h : Inv s) : Inv (_onPlayerTouchEnemy hypot s now e) := by
  cases hgo : s.gameOver with
  | true => rw [touch_gameOver hypot s now e hgo]; exact h
  | false =>
    by_cases hi : now < s.playerInvulnUntil
    · rw [touch_invulnerable hypot s now e hi]; exact h
    · obtain ⟨s1, hp1, go1, heq⟩ := touch_hit_eq hypot s now e hgo hi
      have h1 := h.2.1 hgo
      rw [heq]
      split_ifs with hle
      · obtain ⟨g1, g2, g3, g4, g5, -⟩ := gameOver_releases s1
        refine ⟨by rw [g5, hp1]; omega, fun hc => ?_, fun _ => ⟨g2, g3, g4⟩⟩
        rw [g1] at hc
        cases hc
      · refine ⟨by omega, fun _ => by omega, fun hc => ?_⟩
        rw [go1] at hc
        cases hc

theorem step_gameOver (hypot : K → K → K) (s : GameScene K) (op : Op K)
    (hgo : s.gameOver = true) (hb : ∀ b ∈ s.bullets, b.active = false)
    (hr : op.restartKey = false) : step hypot s op = s := by
  cases op with
  | update time now keys ptr =>
    have hk : keys.restart = false := hr
    simp [step, update, hgo, hk]
  | tryShoot now ptr => exact tryShoot_rejected hypot s now ptr (Or.inl hgo)
  | spawnEnemy side r f => simp [step, _spawnEnemy, hgo]
  | onBulletHitEnemy i j =>
    show _onBulletHitEnemy hypot s i j = s
    cases hbi : s.bullets[i]? with
    | none => simp [_onBulletHitEnemy, hbi]
    | some b =>
      cases hej : s.enemies[j]? with
      | none => simp [_onBulletHitEnemy, hbi, hej]
      | some e =>
        exact onBulletHitEnemy_inactive hypot s i j b e hbi hej
          (Or.inl (hb b (List.getElem?_mem hbi)))
  | onPlayerTouchEnemy now e => exact touch_gameOver hypot s now e hgo

theorem inv_update_gameOver (hypot : K → K → K) (s : GameScene K) (time now : K)
    (keys : Keys) (ptr : Pointer K) (hgo : s.gameOver = true) (h : Inv s) :
    Inv (update hypot s time now keys ptr) := by
  rw [update_gameOver hypot s time now keys ptr hgo]
  split_ifs
  · exact h
  · exact h

theorem inv_step (hypot : K → K → K) (s : GameScene K) (op : Op K) (h : Inv s) :
    Inv (step hypot s op) := by
  cases hgo : s.gameOver with
  | true =>
    cases hr : op.restartKey with
    | false => rw [step_gameOver hypot s op hgo (h.2.2 hgo).2.1 hr]; exact h
    | true =>
      cases op with
      | update time now keys ptr => exact inv_update_gameOver hypot s time now keys ptr hgo h
      | tryShoot now ptr => cases hr
      | spawnEnemy side r f => cases hr
      | onBulletHitEnemy i j => cases hr
      | onPlayerTouchEnemy now e => cases hr
  | false =>
    cases op with
    | update time now keys ptr =>
      exact h.of_session (update_session hypot s time now keys ptr) hgo
    | tryShoot now ptr => exact h.of_session (tryShoot_session hypot s now ptr) hgo
    | spawnEnemy side r f => exact h.of_session (spawnEnemy_session s side r f) hgo
    | onBulletHitEnemy i j => exact h.of_session (onBulletHitEnemy_session hypot s i j) hgo
    | onPlayerTouchEnemy now e => exact inv_touch hypot s now e h

theorem inv_processQueue (s : GameScene K) (h : Inv s) : Inv (processQueue s) := by
  unfold processQueue
  split_ifs
  · exact inv_create
  · exact h

theorem inv_of_reachable (hypot : K → K → K) (s : GameScene K) (h : Reachable hypot s) :
    Inv s := by
  induction h with
  | init => exact inv_create
  | next s op _ ih => exact inv_step hypot s op ih
  | restart s _ ih => exact inv_processQueue s ih

theorem touch_playerHp_le (hypot : K → K → K) (s : GameScene K) (now : K) (e : Enemy K) :
    (_onPlayerTouchEnemy hypot s now e).playerHp ≤ s.playerHp := by
  cases hgo : s.gameOver with
  | true => rw [touch_gameOver hypot s now e hgo]
  | false =>
    by_cases hi : now < s.playerInvulnUntil
    · rw [touch_invulnerable hypot s now e hi]
    · rw [touch_playerHp hypot s now e hgo hi]
      omega

theorem step_playerHp_le (hypot : K → K → K) (s : GameScene K) (op : Op K) :
    (step hypot s op).playerHp ≤ s.playerHp := by
  cases op with
  | update time now keys ptr =>
    exact le_of_eq (update_session hypot s time now keys ptr).1
  | tryShoot now ptr => exact le_of_eq (tryShoot_session hypot s now ptr).1
  | spawnEnemy side r f => exact le_of_eq (spawnEnemy_session s side r f).1
  | onBulletHitEnemy i j => exact le_of_eq (onBulletHitEnemy_session hypot s i j).1
  | onPlayerTouchEnemy now e => exact touch_playerHp_le hypot s now e

theorem hits_playing : ∀ n : Nat, n ≤ 9 →
    (hits n).gameOver = false ∧ (hits n).playerHp = 10 - (n : Int) ∧
      (hits n).playerInvulnUntil ≤ 450 * (n : ℚ) := by
  intro n
  induction n with
  | zero => intro _; exact ⟨rfl, rfl, by simp [hits, create]⟩
  | succ n ih =>
    intro hn
    obtain ⟨g, hp, iv⟩ := ih (by omega)
    have hi : ¬ (450 * (n : ℚ)) < (hits n).playerInvulnUntil := not_lt.mpr iv
    have e : hits (n + 1) =
        _onPlayerTouchEnemy hypotQ (hits n) (450 * (n : ℚ)) (enemyAt 483 274) := rfl
    rw [e]
    refine ⟨?_, ?_, ?_⟩
    · rw [touch_gameOver_iff hypotQ _ _ _ g hi, hp]
      simp only [decide_eq_false_iff_not]
      omega
    · rw [touch_playerHp hypotQ _ _ _ g hi, hp]
      push_cast
      ring
    · rw [touch_playerInvulnUntil hypotQ _ _ _ g hi]
      simp only [CONFIG.hitInvulnMs]
      push_cast
      linarith

theorem hits_ten : (hits 10).gameOver = true ∧ (hits 10).playerHp = 0 := by
  obtain ⟨g, hp, iv⟩ := hits_playing 9 (le_refl 9)
  have hi : ¬ (450 * ((9 : Nat) : ℚ)) < (hits 9).playerInvulnUntil := not_lt.mpr iv
  have e : hits 10 =
      _onPlayerTouchEnemy hypotQ (hits 9) (450 * ((9 : Nat) : ℚ)) (enemyAt 483 274) := rfl
  rw [e]
  constructor
  · rw [touch_gameOver_iff hypotQ _ _ _ g hi, hp]
    decide
  · rw [touch_playerHp hypotQ _ _ _ g hi, hp]
    decide

theorem reachable_hits : ∀ n : Nat, Reachable hypotQ (hits n) := by
  intro n
  induction n with
  | zero => exact Reachable.init
  | succ n ih => exact Reachable.next _ _ ih

theorem step_gameOver_playerHp (hypot : K → K → K) (s : GameScene K) (op : Op K)
    (hgo : s.gameOver = true) (hb : ∀ b ∈ s.bullets, b.active = false) :
    (step hypot s op).playerHp = s.playerHp := by
  cases hr : op.restartKey with
  | false => rw [step_gameOver hypot s op hgo hb hr]
  | true =>
    cases op with
    | update time now keys ptr => exact (update_session hypot s time now keys ptr).1
    | tryShoot now ptr => cases hr
    | spawnEnemy side r f => cases hr
    | onBulletHitEnemy i j => cases hr
    | onPlayerTouchEnemy now e => cases hr

/-- C6: in every state reachable from `create()` by the scene's operations
(`update`, `_tryShoot`, `_spawnEnemy`, `_onBulletHitEnemy`, `_onPlayerTouchEnemy`,
with the framework's restarts in between), each operation leaves
`0 <= playerHp' <= playerHp`, and `playerHp' = playerHp` when `gameOver` is set
before it. -/
theorem health_monotone (hypot : K → K → K) (s : GameScene K) (op : Op K)
    (hs : Reachable hypot s) :
    0 ≤ (step hypot s op).playerHp ∧
    (step hypot s op).playerHp ≤ s.playerHp ∧
    (s.gameOver = true → (step hypot s op).playerHp = s.playerHp) := by
  have hinv := inv_of_reachable hypot s hs
  exact ⟨(inv_step hypot s op hinv).1, step_playerHp_le hypot s op,
    fun hgo => step_gameOver_playerHp hypot s op hgo (hinv.2.2 hgo).2.1⟩

/-- The hypothesis of `health_monotone` holds in the state after ten touches,
which is in GameOver with health 0: an `update` with the restart key just pressed
leaves the health at 0. -/
theorem health_monotone_witness :
    Reachable hypotQ (hits 10) ∧ (hits 10).gameOver = true ∧ (hits 10).playerHp = 0 ∧
    (step hypotQ (hits 10) (Op.update 4500 4500 keysRestart (pointerAt 0 0))).playerHp =
      (hits 10).playerHp :=
  ⟨reachable_hits 10, hits_ten.1, hits_ten.2,
    (health_monotone hypotQ (hits 10) (Op.update 4500 4500 keysRestart (pointerAt 0 0))
      (reachable_hits 10)).2.2 hits_ten.1⟩

/-- C8: in every state reachable from `create()` by the scene's operations, with
the framework's restarts in between, if `gameOver` is set then the spawn timer is paused and no
bullet and no enemy is active; `_gameOver` itself sets the flag, pauses the timer
and deactivates every member of both groups; and while `gameOver` is set every
operation other than a restart leaves the whole state as it is, so it activates
no bullet and no enemy and does not change `score`. -/
theorem gameOver_quiescent (hypot : K → K → K) (s : GameScene K)
    (hs : Reachable hypot s) (hgo : s.gameOver = true) :
    s.spawnPaused = true ∧
    (∀ b ∈ s.bullets, b.active = false) ∧
    (∀ e ∈ s.enemies, e.active = false) ∧
    (∀ s0 : GameScene K,
      (_gameOver s0).gameOver = true ∧ (_gameOver s0).spawnPaused = true ∧
      (∀ b ∈ (_gameOver s0).bullets, b.active = false) ∧
      (∀ e ∈ (_gameOver s0).enemies, e.active = false)) ∧
    (∀ op : Op K, op.restartKey = false →
      step hypot s op = s ∧
      (step hypot s op).score = s.score ∧
      (step hypot s op).gameOver = true ∧
      (∀ b ∈ (step hypot s op).bullets, b.active = false) ∧
      (∀ e ∈ (step hypot s op).enemies, e.active = false)) := by
  obtain ⟨h1, h2, h3⟩ := (inv_of_reachable hypot s hs).2.2 hgo
  refine ⟨h1, h2, h3, fun s0 => ?_, fun op hr => ?_⟩
  · obtain ⟨g1, g2, g3, g4, -, -⟩ := gameOver_releases s0
    exact ⟨g1, g2, g3, g4⟩
  · rw [step_gameOver hypot s op hgo h2 hr]
    exact ⟨rfl, rfl, hgo, h2, h3⟩

/-- The hypotheses of `gameOver_quiescent` hold in the state after ten touches:
it is reachable and in GameOver, and its spawn timer is paused. -/
theorem gameOver_quiescent_witness :
    Reachable hypotQ (hits 10) ∧ (hits 10).gameOver = true ∧
    (hits 10).spawnPaused = true :=
  ⟨reachable_hits 10, hits_ten.1,
    (gameOver_quiescent hypotQ (hits 10) (reachable_hits 10) hits_ten.1).1⟩

end Arena
